import Mathlib

/-!
Shallow embedding of the `AdvancedAnalysisService` engine from
`src/services/advancedAnalysis.ts` (the first of the two engine versions in
that file; all line references in the claims point into it).

Modelling conventions:
* JavaScript numbers are modelled as exact rationals `ℚ`.  The special values
  NaN and ±Infinity, which several functions can really produce through
  degenerate divisions (0/0, x/0), are modelled explicitly by the type `JVal`;
  functions whose reachable arithmetic can hit such a division are written
  over `JVal`, the others over `ℚ`.
* `Number(x.toFixed(2))` is modelled by `round2` (round half away from zero at
  two decimal places; every quantity rounded in the claims is nonnegative, and
  on nonnegative rationals this agrees with `toFixed`).
* `Math.log` and `Math.sqrt` are real-valued and occur only inside
  `calculateVolatility`; they are passed as function parameters `jlog jsqrt`.
  No claim depends on the value they produce.
* External collaborators (historical-data provider, sentiment/news provider,
  the ML trend model, the strategy generator) are passed as explicit inputs;
  a `none` result models a thrown exception / failed fetch, which the service
  catches and resolves to a default value, exactly as the `try`/`catch`
  blocks in the source do.
-/

/-- Number(x.toFixed(2)): rounding to two decimal places. -/
def round2 (q : ℚ) : ℚ := (round (100 * q) : ℚ) / 100

/-- Math.max(...arr) for the nonempty arrays used in this service
(`Math.max()` of an empty spread is -Infinity in JS; every call site below
passes a nonempty array). -/
def jsMaxQ : List ℚ → ℚ
  | [] => 0
  | h :: t => t.foldl max h

/-- Math.min(...arr), same conventions as `jsMaxQ`. -/
def jsMinQ : List ℚ → ℚ
  | [] => 0
  | h :: t => t.foldl min h

/-- arr.slice(-n): the trailing `n` elements (the whole list when shorter). -/
def sliceLast (l : List ℚ) (n : ℕ) : List ℚ := l.drop (l.length - n)

/-- Consecutive differences `prices[i] - prices[i-1]`, for i = 1..len-1. -/
def priceDiffs (prices : List ℚ) : List ℚ :=
  List.zipWith (fun cur prev => cur - prev) prices.tail prices

/-- A JavaScript number: a finite value, +Infinity (`inf true`),
-Infinity (`inf false`), or NaN. -/
inductive JVal where
  | num : ℚ → JVal
  | inf : Bool → JVal
  | nan : JVal
deriving DecidableEq

namespace JVal

/-- Unary minus. -/
def neg : JVal → JVal
  | num a => num (-a)
  | inf s => inf (!s)
  | nan => nan

/-- IEEE addition as performed by JS `+` on numbers. -/
def add : JVal → JVal → JVal
  | nan, _ => nan
  | _, nan => nan
  | num a, num b => num (a + b)
  | num _, inf s => inf s
  | inf s, num _ => inf s
  | inf s, inf t => if s = t then inf s else nan

/-- IEEE subtraction. -/
def sub (a b : JVal) : JVal := add a (neg b)

/-- IEEE multiplication. -/
def mul : JVal → JVal → JVal
  | nan, _ => nan
  | _, nan => nan
  | num a, num b => num (a * b)
  | num a, inf s => if a = 0 then nan else inf (s = decide (0 < a))
  | inf s, num a => if a = 0 then nan else inf (s = decide (0 < a))
  | inf s, inf t => inf (s = t)

/-- IEEE division (the zero divisor is the positive zero: the rationals have
no -0, and no negative zero reaches a division in this service). -/
def div : JVal → JVal → JVal
  | nan, _ => nan
  | _, nan => nan
  | num a, num b =>
      if b = 0 then (if a = 0 then nan else inf (decide (0 < a))) else num (a / b)
  | num _, inf _ => num 0
  | inf s, num a => if a = 0 then inf s else inf (s = decide (0 < a))
  | inf _, inf _ => nan

/-- Math.abs. -/
def jabs : JVal → JVal
  | num a => num |a|
  | inf _ => inf true
  | nan => nan

/-- Math.min of two values (NaN-propagating). -/
def min2 : JVal → JVal → JVal
  | nan, _ => nan
  | _, nan => nan
  | num a, num b => num (min a b)
  | num a, inf s => if s then num a else inf false
  | inf s, num a => if s then num a else inf false
  | inf s, inf t => inf (s && t)

/-- Math.max of two values (NaN-propagating). -/
def max2 : JVal → JVal → JVal
  | nan, _ => nan
  | _, nan => nan
  | num a, num b => num (max a b)
  | num a, inf s => if s then inf true else num a
  | inf s, num a => if s then inf true else num a
  | inf s, inf t => inf (s || t)

/-- The JS comparison `v > q` for a rational bound (false on NaN). -/
def gtq : JVal → ℚ → Bool
  | num a, q => decide (q < a)
  | inf s, _ => s
  | nan, _ => false

/-- The JS comparison `v < q` for a rational bound (false on NaN). -/
def ltq : JVal → ℚ → Bool
  | num a, q => decide (a < q)
  | inf s, _ => !s
  | nan, _ => false

/-- Number(v.toFixed(2)) lifted to JS values: ±Infinity and NaN round-trip
through the string conversion unchanged. -/
def round2J : JVal → JVal
  | num a => num (round2 a)
  | v => v

end JVal

/-- Division of two finite numbers, which may produce ±Infinity or NaN. -/
def jdivQ (a b : ℚ) : JVal := JVal.div (JVal.num a) (JVal.num b)

/-- Math.min of a spread of JS values, `Infinity` when empty. -/
def jsMinJ (l : List JVal) : JVal := l.foldl JVal.min2 (JVal.inf true)

/-- Math.max of a spread of JS values, `-Infinity` when empty. -/
def jsMaxJ (l : List JVal) : JVal := l.foldl JVal.max2 (JVal.inf false)

/-! ### IndicatorLibrary -/

/-- calculateSMA: rolling simple moving average; indices before `period - 1`
are filled with 0, and the empty series yields `[0]`. -/
def calculateSMA (prices : List ℚ) (period : ℕ) : List ℚ :=
  if prices.isEmpty then [0]
  else
    (List.range prices.length).map (fun i =>
      if i < period - 1 then 0
      else ((prices.drop (i + 1 - period)).take period).sum / (period : ℚ))

/-- calculateEMA: exponential smoothing with k = 2/(period+1), seeded with the
first element.  (On the empty array the JS code would return `[undefined]`;
every caller passes a nonempty series.) -/
def calculateEMA (prices : List ℚ) (period : ℕ) : List ℚ :=
  match prices with
  | [] => []
  | p :: rest =>
      rest.scanl
        (fun prev price =>
          price * (2 / ((period : ℚ) + 1)) + prev * (1 - 2 / ((period : ℚ) + 1))) p

/-- The initial Wilder averages of `calculateRSI`/`calculateRSIArray`: average
gain and average loss over the first `period` consecutive differences. -/
def wilderInit (prices : List ℚ) (period : ℕ) : ℚ × ℚ :=
  let ds := (priceDiffs prices).take period
  ((ds.map (fun d => max 0 d)).sum / (period : ℚ),
   (ds.map (fun d => max 0 (-d))).sum / (period : ℚ))

/-- One step of Wilder's smoothing for a new difference `d`. -/
def wilderStep (period : ℕ) (gl : ℚ × ℚ) (d : ℚ) : ℚ × ℚ :=
  ((gl.1 * ((period : ℚ) - 1) + max 0 d) / (period : ℚ),
   (gl.2 * ((period : ℚ) - 1) + max 0 (-d)) / (period : ℚ))

/-- The final Wilder averages after smoothing across the whole series. -/
def wilderAvg (prices : List ℚ) (period : ℕ) : ℚ × ℚ :=
  ((priceDiffs prices).drop period).foldl (wilderStep period) (wilderInit prices period)

/-- calculateRSI: returns 50 on fewer than period+1 points; a zero average
loss sets rs := 100.  The computation over exact rationals is total and the
reachable branch has 1 + rs ≥ 1, so the trailing `isNaN(rsi) ? 50 : rsi`
guard of the source can never fire and is not represented. -/
def calculateRSI (prices : List ℚ) (period : ℕ) : ℚ :=
  if prices.length < period + 1 then 50
  else
    let gl := wilderAvg prices period
    let rs := if gl.2 = 0 then 100 else gl.1 / gl.2
    100 - 100 / (1 + rs)

/-- The per-step RSI value of `calculateRSIArray`; the division
`avgGain / avgLoss` there is NOT guarded against a zero average loss. -/
def rsiFromAverages (g l : ℚ) : JVal :=
  JVal.sub (JVal.num 100) (JVal.div (JVal.num 100) (JVal.add (JVal.num 1) (jdivQ g l)))

/-- The loop of `calculateRSIArray`: update the Wilder averages for each
remaining difference and push the (unguarded) RSI value. -/
def rsiArrayGo (period : ℕ) : ℚ × ℚ → List ℚ → List JVal
  | _, [] => []
  | gl, d :: ds =>
      let gl' := wilderStep period gl d
      rsiFromAverages gl'.1 gl'.2 :: rsiArrayGo period gl' ds

/-- calculateRSIArray: the rolling RSI sequence used by `calculateStochRSI`
(no short-series guard; callers pass at least period+2 points). -/
def calculateRSIArray (prices : List ℚ) (period : ℕ) : List JVal :=
  rsiArrayGo period (wilderInit prices period) ((priceDiffs prices).drop period)

/-- calculateStochRSI: normalises the latest RSI value against the min/max of
the RSI sequence; the division `(max - min)` is unguarded. -/
def calculateStochRSI (prices : List ℚ) (period : ℕ) : JVal :=
  let rsiValues := calculateRSIArray prices period
  let minRSI := jsMinJ rsiValues
  let maxRSI := jsMaxJ rsiValues
  let currentRSI := rsiValues.getLastD JVal.nan
  JVal.mul (JVal.div (JVal.sub currentRSI minRSI) (JVal.sub maxRSI minRSI)) (JVal.num 100)

/-- calculateMACD: EMA12 - EMA26, latest value. -/
def calculateMACD (prices : List ℚ) : ℚ :=
  (calculateEMA prices 12).getLastD 0 - (calculateEMA prices 26).getLastD 0

/-- calculateMACDSignal: EMA9 of the MACD line, latest value. -/
def calculateMACDSignal (prices : List ℚ) : ℚ :=
  let macdLine := List.zipWith (fun a b => a - b) (calculateEMA prices 12) (calculateEMA prices 26)
  (calculateEMA macdLine 9).getLastD 0

/-- calculateMACDHistogram: MACD - signal. -/
def calculateMACDHistogram (prices : List ℚ) : ℚ :=
  calculateMACD prices - calculateMACDSignal prices

/-- calculateTrueRange: per-step true range, where `high := prices[i]` and
both `low` and `previousClose` are `prices[i-1]` (the price series doubles as
high/low, exactly as in the source). -/
def calculateTrueRange (prices : List ℚ) : List ℚ :=
  List.zipWith
    (fun high low => max (high - low) (max |high - low| |low - low|))
    prices.tail prices

/-- calculateADX: directional movement over ATR; `dmMinus` pushes
`max(0, prices[i-1] - low)` with `low = prices[i-1]`, hence always 0, and a
zero ATR makes the normalisations degenerate (0/0). -/
def calculateADX (prices : List ℚ) (period : ℕ) : JVal :=
  let tr := calculateTrueRange prices
  let atr := (sliceLast tr period).sum / (period : ℚ)
  let dmPlus := (priceDiffs prices).map (fun d => max 0 d)
  let dmMinus := List.zipWith (fun _high low => max 0 (low - low)) prices.tail prices
  let diPlus := JVal.mul (jdivQ (dmPlus.sum / (period : ℚ)) atr) (JVal.num 100)
  let diMinus := JVal.mul (jdivQ (dmMinus.sum / (period : ℚ)) atr) (JVal.num 100)
  JVal.mul (JVal.div (JVal.jabs (JVal.sub diPlus diMinus)) (JVal.add diPlus diMinus)) (JVal.num 100)

/-- calculateVolatility: annualised standard deviation of log returns,
clamped to [0,100]; series shorter than 2 yield 30.  `Math.log`/`Math.sqrt`
are the parameters `jlog`/`jsqrt` (real-valued in JS); the trailing
`isNaN` guard is absorbed by their totality on `ℚ`. -/
def calculateVolatility (jlog jsqrt : ℚ → ℚ) (prices : List ℚ) : ℚ :=
  if prices.length < 2 then 30
  else
    let returns := List.zipWith (fun price prev => jlog (price / prev)) prices.tail prices
    let avgReturn := returns.sum / (returns.length : ℚ)
    let variance := (returns.map (fun ret => (ret - avgReturn) ^ 2)).sum / (returns.length : ℚ)
    min 100 (max 0 (jsqrt variance * jsqrt 365 * 100))

/-- calculateVolumeTrend: relative excess of the 5-period over the 20-period
average volume (a zero historical average divides degenerately). -/
def calculateVolumeTrend (volumes : List ℚ) : JVal :=
  if volumes.length < 20 then JVal.num 0
  else
    let recentAvg := (sliceLast volumes 5).sum / 5
    let historicalAvg := (sliceLast volumes 20).sum / 20
    jdivQ (recentAvg - historicalAvg) historicalAvg

/-- calculateTrendIntensity: net fraction of positive returns.  (For a series
of length ≤ 1 the JS code divides by zero; the pipeline only calls this with
at least 20 points.) -/
def calculateTrendIntensity (prices : List ℚ) : ℚ :=
  let returns := List.zipWith (fun price prev => (price - prev) / prev) prices.tail prices
  (((returns.countP (fun r => decide (0 < r)) : ℚ)) -
      ((returns.countP (fun r => decide (r < 0)) : ℚ))) / (returns.length : ℚ)

/-- calculatePriceROC: 14-period rate of change, 0 on short series. -/
def calculatePriceROC (prices : List ℚ) : ℚ :=
  if prices.length < 14 then 0
  else
    let currentPrice := prices.getLastD 0
    let oldPrice := prices.getD (prices.length - 14) 0
    (currentPrice - oldPrice) / oldPrice * 100

/-- calculateVolumeRatio: 5-period over 20-period mean volume, 1 on short
input, NaN-guarded back to 1, floored at 0. -/
def calculateVolumeRatio (volumes : List ℚ) : JVal :=
  if volumes.length < 20 then JVal.num 1
  else
    let recentVolume := (sliceLast volumes 5).sum / 5
    let averageVolume := (sliceLast volumes 20).sum / 20
    match jdivQ recentVolume averageVolume with
    | JVal.nan => JVal.num 1
    | v => JVal.max2 (JVal.num 0) v

/-! ### Qualitative interpreters -/

/-- categorizeVolatilityRisk. -/
def categorizeVolatilityRisk (volatility : ℚ) : String :=
  if 80 < volatility then "high" else if 40 < volatility then "medium" else "low"

/-- interpretRSI. -/
def interpretRSI (rsi : ℚ) : String :=
  if 70 < rsi then "overbought" else if rsi < 30 then "oversold" else "neutral"

/-- interpretStochRSI (its argument can be NaN, on which every comparison is
false and the result is "neutral"). -/
def interpretStochRSI (stochRSI : JVal) : String :=
  if stochRSI.gtq 80 then "extremely overbought"
  else if stochRSI.gtq 60 then "overbought"
  else if stochRSI.ltq 20 then "extremely oversold"
  else if stochRSI.ltq 40 then "oversold"
  else "neutral"

/-- interpretMACD. -/
def interpretMACD (value signal histogram : ℚ) : String :=
  let interpretation :=
    if 0 < histogram then
      (if histogram * (1/10) < histogram then "Strong bullish momentum" else "Bullish momentum")
    else
      (if histogram < -histogram * (1/10) then "Strong bearish momentum" else "Bearish momentum")
  let interpretation :=
    if 0 < value ∧ 0 < signal then interpretation ++ ", upward trend"
    else if value < 0 ∧ signal < 0 then interpretation ++ ", downward trend"
    else interpretation
  if |value - signal| < 1/10 then interpretation ++ ", potential trend reversal"
  else interpretation

/-- The JS relational comparison `a > b` applied to two number arrays:
both operands are coerced to their comma-joined decimal strings and compared
lexicographically.  On the SMA arrays compared by `determineTrendDirection`
the first differing entries are always a positive average versus the fill
value 0 (or the arrays are equal), where the coerced-string order coincides
with this elementwise lexicographic order on the underlying rationals. -/
def arrGt : List ℚ → List ℚ → Bool
  | _ :: _, [] => true
  | [], _ => false
  | a :: as, b :: bs => if b < a then true else if a < b then false else arrGt as bs

/-- determineTrendDirection: compares the three SMA *arrays* (not their latest
values) with the JS relational operator, see `arrGt`. -/
def determineTrendDirection (prices : List ℚ) : String :=
  let ma20 := calculateSMA prices 20
  let ma50 := calculateSMA prices 50
  let ma200 := calculateSMA prices 200
  if arrGt ma20 ma50 && arrGt ma50 ma200 then "bullish"
  else if arrGt ma50 ma20 && arrGt ma200 ma50 then "bearish"
  else "neutral"

/-- determineSecondaryTrend: short vs medium EMA over the last 20 points. -/
def determineSecondaryTrend (prices : List ℚ) : String :=
  let shortMA := (calculateEMA (sliceLast prices 20) 5).getLastD 0
  let mediumMA := (calculateEMA (sliceLast prices 20) 10).getLastD 0
  if mediumMA < shortMA then "bullish"
  else if shortMA < mediumMA then "bearish"
  else "neutral"

/-- determineVolatilityTrend: compares the volatility of the last 50 points
with that of the 50 before. -/
def determineVolatilityTrend (jlog jsqrt : ℚ → ℚ) (prices : List ℚ) : String :=
  if prices.length < 100 then "stable"
  else
    let currentVol := calculateVolatility jlog jsqrt (sliceLast prices 50)
    let previousVol := calculateVolatility jlog jsqrt ((prices.drop (prices.length - 100)).take 50)
    if previousVol * (12/10) < currentVol then "increasing"
    else if currentVol < previousVol * (8/10) then "decreasing"
    else "stable"

/-- determineVolumeTrend: 50-period vs previous-50-period average volume. -/
def determineVolumeTrend (volumes : List ℚ) : String :=
  if volumes.length < 100 then "neutral"
  else
    let recentAvg := (sliceLast volumes 50).sum / 50
    let previousAvg := ((volumes.drop (volumes.length - 100)).take 50).sum / 50
    if previousAvg * (11/10) < recentAvg then "increasing"
    else if recentAvg < previousAvg * (9/10) then "decreasing"
    else "neutral"

/-! ### VolumeProfileBuilder -/

structure QRange where
  high : ℚ
  low : ℚ
deriving DecidableEq

structure VolumeProfile where
  poc : ℚ
  valueArea : QRange
  supports : List ℚ
  resistances : List ℚ
  buyingPressure : JVal
  sellingPressure : JVal
  strength : JVal
deriving DecidableEq

/-- The `Map` keyed by bucketed price: an association list in key insertion
order; `bumpVolume m k v` models `m.set(k, (m.get(k) || 0) + v)`. -/
def bumpVolume : List (ℚ × ℚ) → ℚ → ℚ → List (ℚ × ℚ)
  | [], k, v => [(k, v)]
  | (k0, v0) :: rest, k, v =>
      if k0 = k then (k0, v0 + v) :: rest else (k0, v0) :: bumpVolume rest k v

/-- `priceVolume.get(k) || 0`. -/
def lookupVolume (m : List (ℚ × ℚ)) (k : ℚ) : ℚ :=
  match m.find? (fun kv => kv.1 = k) with
  | some kv => kv.2
  | none => 0

/-- The accumulation loop of `calculateVolumeProfile`: bucket each price to
the nearest multiple of 10 and add the aligned volume. -/
def priceVolumeMap (prices volumes : List ℚ) : List (ℚ × ℚ) :=
  (List.zip prices volumes).foldl
    (fun m pv => bumpVolume m ((round (pv.1 / 10) : ℚ) * 10) pv.2) []

/-- The POC search: first strictly-larger volume wins, seeded with
`(0, currentPrice)`. -/
def findPoc (m : List (ℚ × ℚ)) (currentPrice : ℚ) : ℚ × ℚ :=
  m.foldl (fun acc kv => if acc.1 < kv.2 then (kv.2, kv.1) else acc) (0, currentPrice)

/-- Insertion into a sorted list (ascending). -/
def insertSorted (x : ℚ) : List ℚ → List ℚ
  | [] => [x]
  | y :: ys => if x ≤ y then x :: y :: ys else y :: insertSorted x ys

/-- `Array.from(keys).sort((a, b) => a - b)`. -/
def sortQ (l : List ℚ) : List ℚ := l.foldr insertSorted []

/-- `arr.indexOf(x)`: -1 when absent. -/
def indexOfQ (l : List ℚ) (x : ℚ) : ℤ :=
  match l.findIdx? (fun y => y = x) with
  | some i => (i : ℤ)
  | none => -1

/-- `arr[i]` for a possibly negative/overflowing index: undefined is `none`. -/
def getAtZ (l : List ℚ) (i : ℤ) : Option ℚ :=
  if i < 0 then none else l.get? i.toNat

/-- One test-and-step of the value-area `while` loop.  The state is
`(low, high, volumeSum)`.  `none` means the loop condition failed.
Mirrors the JS truthiness tests: a neighbouring bucket at price 0 is falsy,
so it contributes no volume and is never stepped onto. -/
def valueAreaStep (pv : List (ℚ × ℚ)) (sorted : List ℚ) (target : ℚ)
    (st : ℚ × ℚ × ℚ) : Option (ℚ × ℚ × ℚ) :=
  let low := st.1
  let high := st.2.1
  let volumeSum := st.2.2
  if volumeSum < target ∧ (sorted.headD 0 < low ∨ high < sorted.getLastD 0) then
    let nextLow := getAtZ sorted (indexOfQ sorted low - 1)
    let nextHigh := getAtZ sorted (indexOfQ sorted high + 1)
    let lowVolume := match nextLow with
      | some nl => if nl = 0 then 0 else lookupVolume pv nl
      | none => 0
    let highVolume := match nextHigh with
      | some nh => if nh = 0 then 0 else lookupVolume pv nh
      | none => 0
    if highVolume < lowVolume then
      some (match nextLow with
        | some nl => if nl = 0 then low else nl
        | none => low, high, volumeSum + lowVolume)
    else
      some (low, (match nextHigh with
        | some nh => if nh = 0 then high else nh
        | none => high), volumeSum + highVolume)
  else none

/-- The value-area loop, fuelled.  (When no neighbouring bucket exists or
carries volume the JS loop makes no progress and spins forever; the fuel
bound models any terminating execution and is irrelevant to the zero-volume
inputs reasoned about below, where the loop body never runs.) -/
def valueAreaLoop (pv : List (ℚ × ℚ)) (sorted : List ℚ) (target : ℚ) :
    ℕ → ℚ × ℚ × ℚ → ℚ × ℚ × ℚ
  | 0, st => st
  | fuel + 1, st =>
      match valueAreaStep pv sorted target st with
      | some st' => valueAreaLoop pv sorted target fuel st'
      | none => st

/-- calculateVolumeProfile. -/
def calculateVolumeProfile (prices volumes : List ℚ) : VolumeProfile :=
  if prices.isEmpty ∨ volumes.isEmpty then
    { poc := 0, valueArea := { high := 0, low := 0 }, supports := [0], resistances := [0],
      buyingPressure := JVal.num (1/2), sellingPressure := JVal.num (1/2),
      strength := JVal.num (1/2) }
  else
    let currentPrice := prices.getLastD 0
    let pv := priceVolumeMap prices volumes
    let mp := findPoc pv currentPrice
    let maxVolume := mp.1
    let poc := mp.2
    let totalVolume := (pv.map (fun kv => kv.2)).sum
    let valueAreaVolume := totalVolume * (68/100)
    let sorted := sortQ (pv.map (fun kv => kv.1))
    let st := valueAreaLoop pv sorted valueAreaVolume (2 * sorted.length + 2) (poc, poc, 0)
    let volumeSum := st.2.2
    { poc := poc,
      valueArea := { high := st.2.1, low := st.1 },
      supports := [st.1],
      resistances := [st.2.1],
      buyingPressure := jdivQ volumeSum totalVolume,
      sellingPressure := JVal.sub (JVal.num 1) (jdivQ volumeSum totalVolume),
      strength := jdivQ maxVolume totalVolume }

/-! ### Result records -/

structure KeyLevels where
  strongSupport : ℚ
  support : ℚ
  pivot : ℚ
  resistance : ℚ
  strongResistance : ℚ
deriving DecidableEq

structure MarketCondition where
  phase : String
  strength : ℚ
  confidence : ℚ
  keyLevels : KeyLevels
deriving DecidableEq

structure TrendInfo where
  primary : String
  secondary : String
  strength : ℚ
deriving DecidableEq

structure SignalRead where
  value : JVal
  signal : String
deriving DecidableEq

structure Momentum where
  rsi : SignalRead
  macd : SignalRead
  stochRSI : SignalRead
deriving DecidableEq

structure VolatilityInfo where
  current : ℚ
  trend : String
  risk : String
deriving DecidableEq

structure VolumeInfo where
  change : JVal
  trend : String
  significance : String
deriving DecidableEq

structure TechnicalSignals where
  trend : TrendInfo
  momentum : Momentum
  volatility : VolatilityInfo
  volume : VolumeInfo
deriving DecidableEq

structure SentimentRec where
  volume : ℚ
  sentiment : String
deriving DecidableEq

structure NewsItem where
  title : String
  sentiment : String
deriving DecidableEq

structure SentimentOverall where
  score : ℚ
  signal : String
  confidence : ℚ
deriving DecidableEq

structure NewsComponent where
  score : ℚ
  recent : List String
  trend : String
deriving DecidableEq

structure SocialComponent where
  score : ℚ
  trend : String
  volume : JVal
deriving DecidableEq

structure MarketComponent where
  score : JVal
  dominance : ℚ
  flow : String
deriving DecidableEq

structure SentimentComponents where
  news : NewsComponent
  social : SocialComponent
  market : MarketComponent
deriving DecidableEq

structure SentimentAnalysis where
  overall : SentimentOverall
  components : SentimentComponents
deriving DecidableEq

structure PriceRange where
  low : ℚ
  high : ℚ
deriving DecidableEq

structure Prediction where
  price : PriceRange
  confidence : ℚ
  signals : List String
deriving DecidableEq

structure PredictionSet where
  shortTerm : Prediction
  midTerm : Prediction
  longTerm : Prediction
deriving DecidableEq

structure RiskFactors where
  technical : JVal
  fundamental : JVal
  sentiment : JVal
  market : JVal
deriving DecidableEq

structure RiskAnalysis where
  overall : JVal
  factors : RiskFactors
  warnings : List String
deriving DecidableEq

structure EntryLevels where
  conservative : ℚ
  moderate : ℚ
  aggressive : ℚ
deriving DecidableEq

structure StopLossLevels where
  tight : ℚ
  normal : ℚ
  wide : ℚ
deriving DecidableEq

structure TargetLevels where
  primary : ℚ
  secondary : ℚ
  final : ℚ
deriving DecidableEq

structure TradingStrategy where
  recommendation : String
  confidence : ℚ
  entries : EntryLevels
  stopLoss : StopLossLevels
  targets : TargetLevels
  timeframe : String
  rationale : List String
deriving DecidableEq

structure AdvancedAnalysis where
  marketCondition : MarketCondition
  technicalSignals : TechnicalSignals
  sentimentAnalysis : SentimentAnalysis
  predictions : PredictionSet
  riskAnalysis : RiskAnalysis
  tradingStrategy : TradingStrategy
deriving DecidableEq

/-- The snapshot returned by `api.getHistoricalData`. -/
structure HistoricalData where
  prices : List ℚ
  volumes : Option (List ℚ)
  current_price : Option ℚ
deriving DecidableEq

/-- The external ML trend model: consumes the 4-element feature vector
`[adx, trendIntensity, priceROC, volumeTrend]` and either yields its scalar
prediction or fails (`none` models a thrown exception). -/
def TrendModel : Type := JVal → ℚ → ℚ → JVal → Option ℚ

/-! ### MarketPhaseClassifier -/

/-- calculateConfidence: clamped average of the indicator scores. -/
def calculateConfidence (indicators : List ℚ) : ℚ :=
  min 95 (max 30 (indicators.sum / (indicators.length : ℚ)))

/-- analyzeTrendStrength: computes the feature vector and consults the
external model (the `await`ed prediction). -/
def analyzeTrendStrength (tm : TrendModel) (prices volumes : List ℚ) : Option ℚ :=
  tm (calculateADX prices 14) (calculateTrendIntensity prices)
    (calculatePriceROC prices) (calculateVolumeTrend volumes)

/-- getDefaultMarketPhase: deterministic fallback keyed by asset identity. -/
def getDefaultMarketPhase (currentPrice : ℚ) (crypto : String) : MarketCondition :=
  let range : ℚ × ℚ :=
    if crypto.toLower = "bitcoin" then (65000, 70000)
    else if crypto.toLower = "ethereum" then (2300, 2500)
    else if crypto.toLower = "binancecoin" then (280, 320)
    else if crypto.toLower = "cardano" then (45/100, 55/100)
    else if crypto.toLower = "solana" then (90, 110)
    else (currentPrice * (95/100), currentPrice * (105/100))
  { phase := "Analyzing",
    strength := 1/2,
    confidence := 50,
    keyLevels :=
      { strongSupport := round2 (range.1 * (98/100)),
        support := round2 range.1,
        pivot := round2 currentPrice,
        resistance := round2 range.2,
        strongResistance := round2 (range.2 * (102/100)) } }

/-- The `support` local of `calculateMarketPhase`: the maximum of the recent
low, 0.5% below the lower of MA20/MA50, and 5% below the current price. -/
def marketSupport (prices : List ℚ) : ℚ :=
  let currentPrice := prices.getLastD 0
  let ma20 := (calculateSMA prices 20).getD 0 0
  let ma50 := (calculateSMA prices 50).getD 0 0
  let lowPrice := jsMinQ (sliceLast prices 20)
  max lowPrice (max (min ma20 ma50 * (995/1000)) (currentPrice * (95/100)))

/-- The `resistance` local of `calculateMarketPhase`, floored at
`support * 1.01`. -/
def marketResistance (prices : List ℚ) : ℚ :=
  let currentPrice := prices.getLastD 0
  let ma20 := (calculateSMA prices 20).getD 0 0
  let ma50 := (calculateSMA prices 50).getD 0 0
  let highPrice := jsMaxQ (sliceLast prices 20)
  max (min highPrice (min (max ma20 ma50 * (1005/1000)) (currentPrice * (105/100))))
    (marketSupport prices * (101/100))

/-- The rounded and validated `keyLevels` of `calculateMarketPhase`.  The
`isNaN` halves of the two validations cannot fire over exact rationals and
are omitted; the `=== 0` halves are kept. -/
def marketKeyLevels (prices : List ℚ) : KeyLevels :=
  let currentPrice := prices.getLastD 0
  let support := marketSupport prices
  let resistance := marketResistance prices
  let keyLevels : KeyLevels :=
    { strongSupport := round2 (support * (99/100)),
      support := round2 support,
      pivot := round2 currentPrice,
      resistance := round2 resistance,
      strongResistance := round2 (resistance * (101/100)) }
  let keyLevels :=
    if keyLevels.resistance = 0 then
      { keyLevels with resistance := round2 (currentPrice * (105/100)) }
    else keyLevels
  if keyLevels.strongResistance = 0 then
    { keyLevels with strongResistance := round2 (keyLevels.resistance * (101/100)) }
  else keyLevels

/-- calculateMarketPhase (first engine version).  The `try` body is pure
except for the `await`ed model prediction, so the only reachable route to the
`catch` handler on array inputs is a model failure; the pure computation is
hoisted below the match on that prediction. -/
def calculateMarketPhase (tm : TrendModel) (prices volumeData : List ℚ)
    (crypto : String) : MarketCondition :=
  match analyzeTrendStrength tm prices volumeData with
  | none => getDefaultMarketPhase (prices.getLastD 0) crypto
  | some trendStrength =>
    let currentPrice := prices.getLastD 0
    let ma20 := (calculateSMA prices 20).getD 0 0
    let ma50 := (calculateSMA prices 50).getD 0 0
    let ma200 := (calculateSMA prices 200).getD 0 0
    let support := marketSupport prices
    let resistance := marketResistance prices
    let phase :=
      if ma50 < currentPrice ∧ ma200 < ma50 ∧ ma50 < ma20 then "bullish"
      else if ¬ ma50 < currentPrice ∧ ¬ ma200 < ma50 ∧ ¬ ma50 < ma20 then "bearish"
      else if ma200 < currentPrice ∧ ¬ ma50 < currentPrice then "correction"
      else if ¬ ma200 < currentPrice ∧ ma50 < currentPrice then "recovery"
      else "sideways"
    let phaseStrength := |trendStrength|
    let confidence := calculateConfidence
      [phaseStrength * 100,
       if ma50 < currentPrice then 60 else 40,
       if ma200 < currentPrice then 60 else 40,
       (currentPrice - support) / (resistance - support) * 100]
    { phase := phase,
      strength := round2 phaseStrength,
      confidence := round2 confidence,
      keyLevels := marketKeyLevels prices }

/-! ### PricePredictor -/

/-- generatePredictionSignals. -/
def generatePredictionSignals (low high volatility : ℚ) : List String :=
  let range := (high - low) / low
  let signals :=
    if 5/100 < range then ["Moderate price movement expected"]
    else if 10/100 < range then ["Significant price movement expected"]
    else ["Stable price action expected"]
  if 3/100 < volatility then signals ++ ["Higher than average volatility"]
  else if volatility < 1/100 then signals ++ ["Lower than average volatility"]
  else signals

/-- The input record of predictPriceTargets. -/
structure PredictInput where
  prices : List ℚ
  volumes : List ℚ
  currentPrice : ℚ
  volatility : ℚ
  sentiment : ℚ

/-- predictPriceTargets (widening-range policy).  The `try` body performs no
fallible operation, so the `catch` route to `getDefaultPredictions` is
unreachable on these inputs and not represented. -/
def predictPriceTargets (data : PredictInput) : PredictionSet :=
  let volatilityFactor := min (5/100) (data.volatility / 1000)
  let sentimentFactor := (data.sentiment - 50) / 100 * (2/100)
  let recentPrices := sliceLast data.prices 20
  let trendFactor := min (3/100) (max (-(3/100))
    ((recentPrices.getLastD 0 - recentPrices.headD 0) / recentPrices.headD 0))
  let shortTermRange : PriceRange :=
    { low := data.currentPrice * (1 - (volatilityFactor + 1/100)),
      high := data.currentPrice * (1 + (volatilityFactor + 1/100)) }
  let midTermRange : PriceRange :=
    { low := data.currentPrice * (1 - (volatilityFactor * 2 + 2/100)),
      high := data.currentPrice * (1 + (volatilityFactor * 2 + 2/100)) }
  let longTermRange : PriceRange :=
    { low := data.currentPrice * (1 - (volatilityFactor * 3 + 3/100)),
      high := data.currentPrice * (1 + (volatilityFactor * 3 + 3/100)) }
  let adjustRanges : PriceRange → PriceRange := fun range =>
    let sentimentAdjustment := data.currentPrice * sentimentFactor
    let trendAdjustment := data.currentPrice * trendFactor
    { low := max (range.low + sentimentAdjustment + trendAdjustment)
        (data.currentPrice * (85/100)),
      high := min (range.high + sentimentAdjustment + trendAdjustment)
        (data.currentPrice * (115/100)) }
  let baseConfidence := min 90 (max 50
    (70 - volatilityFactor * 100 + |sentimentFactor| * 100))
  { shortTerm :=
      { price := adjustRanges shortTermRange,
        confidence := baseConfidence,
        signals := generatePredictionSignals shortTermRange.low shortTermRange.high
          volatilityFactor },
    midTerm :=
      { price := adjustRanges midTermRange,
        confidence := max 40 (baseConfidence * (9/10)),
        signals := generatePredictionSignals midTermRange.low midTermRange.high
          (volatilityFactor * 2) },
    longTerm :=
      { price := adjustRanges longTermRange,
        confidence := max 30 (baseConfidence * (8/10)),
        signals := generatePredictionSignals longTermRange.low longTermRange.high
          (volatilityFactor * 3) } }

/-- getDefaultPredictions. -/
def getDefaultPredictions (currentPrice : ℚ) : PredictionSet :=
  { shortTerm :=
      { price := { low := currentPrice * (95/100), high := currentPrice * (105/100) },
        confidence := 50, signals := ["Default prediction"] },
    midTerm :=
      { price := { low := currentPrice * (90/100), high := currentPrice * (110/100) },
        confidence := 40, signals := ["Default prediction"] },
    longTerm :=
      { price := { low := currentPrice * (85/100), high := currentPrice * (115/100) },
        confidence := 30, signals := ["Default prediction"] } }

/-! ### RiskScorer and sentiment helpers -/

/-- calculateNewsScore. -/
def calculateNewsScore (news : List NewsItem) : ℚ :=
  if news.isEmpty then 50
  else
    let positiveCount := news.countP (fun n => n.sentiment = "positive")
    let negativeCount := news.countP (fun n => n.sentiment = "negative")
    (((positiveCount : ℚ) - (negativeCount : ℚ)) / (news.length : ℚ) + 1) * 50

/-- `sentiment[0]?.volume || 50` (a zero volume is falsy). -/
def headVolumeOr50 (sentiment : List SentimentRec) : ℚ :=
  match sentiment with
  | [] => 50
  | s :: _ => if s.volume = 0 then 50 else s.volume

/-- `sentiment[0]?.sentiment || "neutral"` (the empty string is falsy). -/
def headSentimentOrNeutral (sentiment : List SentimentRec) : String :=
  match sentiment with
  | [] => "neutral"
  | s :: _ => if s.sentiment = "" then "neutral" else s.sentiment

/-- calculateSentimentScore. -/
def calculateSentimentScore (news : List NewsItem) (sentiment : List SentimentRec) : ℚ :=
  if news.isEmpty then 50
  else (calculateNewsScore news + headVolumeOr50 sentiment) / 2

/-- calculateNewsTrend. -/
def calculateNewsTrend (news : List NewsItem) : String :=
  if news.isEmpty then "neutral"
  else
    let recentNews := news.take 5
    let positiveCount := recentNews.countP (fun n => n.sentiment = "positive")
    let negativeCount := recentNews.countP (fun n => n.sentiment = "negative")
    if (negativeCount : ℚ) * (3/2) < (positiveCount : ℚ) then "bullish"
    else if (positiveCount : ℚ) * (3/2) < (negativeCount : ℚ) then "bearish"
    else "neutral"

/-- determineSentimentSignal. -/
def determineSentimentSignal (sentiment : List SentimentRec) : String :=
  let score := headVolumeOr50 sentiment
  if 60 < score then "bullish" else if score < 40 then "bearish" else "neutral"

/-- generateRiskWarnings: the trend-strength test is the *signed* comparison
`trendStrength < 0.3`; the volume ratio can be NaN (0/0 at the call site), on
which its comparison is false. -/
def generateRiskWarnings (volatility trendStrength : ℚ) (volumeRatio : JVal) :
    List String :=
  let warnings :=
    (if 50 < volatility then ["High market volatility"] else []) ++
    (if trendStrength < 3/10 then ["Weak market trend"] else []) ++
    (if volumeRatio.gtq 2 then ["Unusual trading volume"] else [])
  if warnings.isEmpty then ["No significant risks detected"] else warnings

/-- calculateFundamentalRisk: divisions by trailing volumes/prices can be
degenerate, so the score is a JS value. -/
def calculateFundamentalRisk (jlog jsqrt : ℚ → ℚ) (prices volumes : List ℚ) : JVal :=
  let volatility := calculateVolatility jlog jsqrt prices
  let volumeChange := jdivQ (volumes.getLastD 0) (volumes.getD (volumes.length - 2) 0)
  let priceChange := jdivQ (prices.getLastD 0 - prices.getD (prices.length - 2) 0)
    (prices.getD (prices.length - 2) 0)
  let riskScore :=
    JVal.add
      (JVal.add (JVal.num (volatility * (4/10)))
        (JVal.mul (JVal.jabs (JVal.sub volumeChange (JVal.num 1))) (JVal.num 30)))
      (JVal.mul (JVal.jabs priceChange) (JVal.num 30))
  JVal.min2 (JVal.num 100) (JVal.max2 (JVal.num 0) riskScore)

/-- calculateMarketRisk. -/
def calculateMarketRisk (prices volumes : List ℚ) : JVal :=
  let trendStrength := JVal.jabs (jdivQ
    (prices.getLastD 0 - prices.getD (prices.length - 20) 0)
    (prices.getD (prices.length - 20) 0))
  let volumeTrend := jdivQ (volumes.getLastD 0) ((sliceLast volumes 20).sum / 20)
  let riskScore :=
    JVal.add
      (JVal.mul (JVal.sub (JVal.num 50) (JVal.mul trendStrength (JVal.num 100)))
        (JVal.num (6/10)))
      (JVal.mul (JVal.jabs (JVal.sub volumeTrend (JVal.num 1))) (JVal.num 40))
  JVal.min2 (JVal.num 100) (JVal.max2 (JVal.num 0) riskScore)

/-- analyzeRisk. -/
def analyzeRisk (jlog jsqrt : ℚ → ℚ) (prices volumes : List ℚ)
    (volatility trendStrength : ℚ) (news : List NewsItem)
    (sentiment : List SentimentRec) : RiskAnalysis :=
  let technicalRisk := volatility * (7/10) + (1 - |trendStrength|) * 30
  let sentimentRisk := 100 - calculateSentimentScore news sentiment
  let fundamentalRisk := calculateFundamentalRisk jlog jsqrt prices volumes
  let marketRisk := calculateMarketRisk prices volumes
  { overall := JVal.div
      (JVal.add (JVal.add (JVal.add (JVal.num technicalRisk) (JVal.num sentimentRisk))
        fundamentalRisk) marketRisk)
      (JVal.num 4),
    factors :=
      { technical := JVal.num technicalRisk,
        fundamental := fundamentalRisk,
        sentiment := JVal.num sentimentRisk,
        market := marketRisk },
    warnings := generateRiskWarnings volatility trendStrength
      (jdivQ (volumes.getLastD 0) (volumes.getD (volumes.length - 2) 0)) }

/-! ### Technical signals and the orchestrator -/

/-- `volumeProfile.strength || 0.5`: NaN and 0 are falsy.  (±Infinity would be
truthy in JS, but `strength` is a quotient of finite volume sums and is never
infinite.) -/
def strengthOrHalf (v : JVal) : ℚ :=
  match v with
  | JVal.num q => if q = 0 then 1/2 else q
  | _ => 1/2

/-- calculateTechnicalSignals: `none` models the thrown validation errors
(fewer than 200 price points, or a non-positive price; the `typeof`/`isNaN`
parts of that test cannot fire over `ℚ`). -/
def calculateTechnicalSignals (jlog jsqrt : ℚ → ℚ) (prices volumes : List ℚ) :
    Option TechnicalSignals :=
  if prices.length < 200 then none
  else if prices.any (fun p => p ≤ 0) then none
  else
    let rsi := calculateRSI prices 14
    let macdValue := calculateMACD prices
    let macdSignal := calculateMACDSignal prices
    let macdHistogram := calculateMACDHistogram prices
    let stochRSI := calculateStochRSI prices 14
    let volumeChange :=
      if volumes.length ≠ 0 then calculateVolumeRatio (sliceLast volumes 100)
      else JVal.num 1
    let volatility := calculateVolatility jlog jsqrt (sliceLast prices 100)
    let primaryTrend := determineTrendDirection prices
    let secondaryTrend := determineSecondaryTrend prices
    let volumeProfile := calculateVolumeProfile (sliceLast prices 200) (sliceLast volumes 200)
    let trendStrength := strengthOrHalf volumeProfile.strength
    some
      { trend :=
          { primary := primaryTrend,
            secondary := secondaryTrend,
            strength := round2 trendStrength },
        momentum :=
          { rsi := { value := JVal.num (round2 rsi), signal := interpretRSI rsi },
            macd := { value := JVal.num (round2 macdValue),
                      signal := interpretMACD macdValue macdSignal macdHistogram },
            stochRSI := { value := stochRSI.round2J, signal := interpretStochRSI stochRSI } },
        volatility :=
          { current := round2 volatility,
            trend := determineVolatilityTrend jlog jsqrt (sliceLast prices 100),
            risk := categorizeVolatilityRisk volatility },
        volume :=
          { change := volumeChange.round2J,
            trend := determineVolumeTrend (sliceLast volumes 100),
            significance :=
              if volumeProfile.strength.gtq (7/10) then "strong"
              else if volumeProfile.strength.gtq (4/10) then "moderate"
              else "weak" } }

/-- getDefaultAnalysis: the fully-populated fallback report. -/
def getDefaultAnalysis (crypto : String) : AdvancedAnalysis :=
  let defaultPrice : ℚ := 76000
  { marketCondition := getDefaultMarketPhase defaultPrice crypto,
    technicalSignals :=
      { trend := { primary := "neutral", secondary := "neutral", strength := 1/2 },
        momentum :=
          { rsi := { value := JVal.num 50, signal := "neutral" },
            macd := { value := JVal.num 0, signal := "neutral" },
            stochRSI := { value := JVal.num 50, signal := "neutral" } },
        volatility := { current := 30, trend := "stable", risk := "low" },
        volume := { change := JVal.num 1, trend := "neutral", significance := "moderate" } },
    sentimentAnalysis :=
      { overall := { score := 50, signal := "neutral", confidence := 50 },
        components :=
          { news := { score := 50, recent := [], trend := "neutral" },
            social := { score := 50, trend := "neutral", volume := JVal.num 1 },
            market := { score := JVal.num 50, dominance := 50, flow := "stable" } } },
    predictions := getDefaultPredictions defaultPrice,
    riskAnalysis :=
      { overall := JVal.num 50,
        factors :=
          { technical := JVal.num 50, fundamental := JVal.num 50,
            sentiment := JVal.num 50, market := JVal.num 50 },
        warnings := ["Using default analysis due to data unavailability"] },
    tradingStrategy :=
      { recommendation := "Hold",
        confidence := 50,
        entries := { conservative := defaultPrice * (98/100), moderate := defaultPrice,
                     aggressive := defaultPrice * (102/100) },
        stopLoss := { tight := defaultPrice * (95/100), normal := defaultPrice * (93/100),
                      wide := defaultPrice * (90/100) },
        targets := { primary := defaultPrice * (105/100), secondary := defaultPrice * (110/100),
                     final := defaultPrice * (115/100) },
        timeframe := "Medium-term",
        rationale := ["Using default analysis due to data unavailability"] } }

/-- `historicalData.current_price || prices[prices.length - 1]` (0 is falsy). -/
def resolvedCurrentPrice (hist : HistoricalData) : ℚ :=
  match hist.current_price with
  | some c => if c = 0 then hist.prices.getLastD 0 else c
  | none => hist.prices.getLastD 0

/-- getFullAnalysis.  The external calls are the `Option` inputs: `none` for
the historical fetch, sentiment fetch, news fetch, or strategy generation
models that call throwing (or a failed validation of the fetched data), which
the orchestrator catches and resolves to `getDefaultAnalysis`. -/
def getFullAnalysis (jlog jsqrt : ℚ → ℚ) (tm : TrendModel)
    (histOpt : Option HistoricalData) (sentimentOpt : Option (List SentimentRec))
    (newsOpt : Option (List NewsItem)) (strategyOpt : Option TradingStrategy)
    (crypto : String) : AdvancedAnalysis :=
  match histOpt with
  | none => getDefaultAnalysis crypto
  | some hist =>
    if hist.prices.length < 20 then getDefaultAnalysis crypto
    else
      let volumes := hist.volumes.getD (List.replicate hist.prices.length 0)
      let current_price := resolvedCurrentPrice hist
      if current_price = 0 ∨ hist.prices.length = 0 then getDefaultAnalysis crypto
      else
        match calculateTechnicalSignals jlog jsqrt hist.prices volumes with
        | none => getDefaultAnalysis crypto
        | some technicalSignals =>
          let marketCondition := calculateMarketPhase tm hist.prices volumes crypto
          match sentimentOpt, newsOpt with
          | some sentiment, some news =>
            let predictions := predictPriceTargets
              { prices := hist.prices, volumes := volumes, currentPrice := current_price,
                volatility := technicalSignals.volatility.current,
                sentiment := headVolumeOr50 sentiment }
            let riskAnalysis := analyzeRisk jlog jsqrt hist.prices volumes
              technicalSignals.volatility.current technicalSignals.trend.strength
              news sentiment
            match strategyOpt with
            | none => getDefaultAnalysis crypto
            | some strategy0 =>
              { marketCondition := marketCondition,
                technicalSignals := technicalSignals,
                sentimentAnalysis :=
                  { overall :=
                      { score := calculateSentimentScore news sentiment,
                        signal := determineSentimentSignal sentiment,
                        confidence := calculateConfidence
                          [technicalSignals.trend.strength * 100,
                           calculateNewsScore news] },
                    components :=
                      { news :=
                          { score := calculateNewsScore news,
                            recent := (news.take 3).map (fun n => n.title),
                            trend := calculateNewsTrend news },
                        social :=
                          { score := headVolumeOr50 sentiment,
                            trend := headSentimentOrNeutral sentiment,
                            volume := technicalSignals.volume.change },
                        market :=
                          { score := JVal.div
                              (JVal.add technicalSignals.momentum.rsi.value
                                (JVal.num (if technicalSignals.momentum.macd.value.gtq 0
                                  then 60 else 40)))
                              (JVal.num 2),
                            dominance := technicalSignals.trend.strength * 100,
                            flow := if technicalSignals.volume.change.gtq 1
                              then "inflow" else "outflow" } } },
                predictions := predictions,
                riskAnalysis := riskAnalysis,
                tradingStrategy := strategy0 }
          | _, _ => getDefaultAnalysis crypto

/-! ### Concrete inputs used in the verification below -/

def bitcoinId : String := "bitcoin"

def tokenId : String := "token"

/-- A strictly rising price series 1, 2, ..., n. -/
def risingPrices (n : ℕ) : List ℚ := (List.range n).map (fun (i : ℕ) => (i : ℚ) + 1)

/-- A flat volume series. -/
def flatVolumes (n : ℕ) : List ℚ := List.replicate n 1000

/-- A trend model that always answers 0.5 (a successful external inference). -/
def tmHalf : TrendModel := fun _ _ _ _ => some (1/2)

/-- Instantiation for `Math.log` / `Math.sqrt` in concrete runs; none of the
facts evaluated on concrete inputs depend on volatility values. -/
def zeroFn : ℚ → ℚ := fun _ => 0

/-- A fetched snapshot with 200 valid rising prices and all-zero volumes. -/
def histZeroVol200 : HistoricalData :=
  { prices := risingPrices 200, volumes := some (List.replicate 200 0),
    current_price := none }

/-- A concrete strategy-generator result. -/
def holdStrategy : TradingStrategy := (getDefaultAnalysis bitcoinId).tradingStrategy

/-- A valid 200-point series: flat at 100 with a final spike to 200. -/
def spikePrices : List ℚ := List.replicate 199 100 ++ [200]

/-- A valid positive series at a sub-cent-rounding price level. -/
def tinyPrices : List ℚ := [1/10, 1/10]

/-! ### Helper lemmas: rounding -/

lemma round2_mono {x y : ℚ} (h : x ≤ y) : round2 x ≤ round2 y := by
  unfold round2
  have hr : round (100 * x) ≤ round (100 * y) := by
    rw [round_eq, round_eq]
    exact Int.floor_mono (by linarith)
  have hc : ((round (100 * x) : ℤ) : ℚ) ≤ ((round (100 * y) : ℤ) : ℚ) := by
    exact_mod_cast hr
  linarith

lemma round2_zero : round2 0 = 0 := by
  simp [round2]

lemma round2_nonneg {x : ℚ} (h : 0 ≤ x) : 0 ≤ round2 x := by
  have := round2_mono h
  rwa [round2_zero] at this

lemma round2_eq_self {x : ℚ} (n : ℤ) (h : x * 100 = (n : ℚ)) : round2 x = x := by
  unfold round2
  rw [show (100 : ℚ) * x = (n : ℚ) by linarith, round_intCast]
  have : (x : ℚ) = (n : ℚ) / 100 := by
    field_simp at h ⊢
    linarith
  rw [this]

lemma round2_round2 (x : ℚ) : round2 (round2 x) = round2 x := by
  apply round2_eq_self (round (100 * x))
  unfold round2
  field_simp

lemma round2_ge_of_ne_zero {x : ℚ} (hx : 0 ≤ x) (h : round2 x ≠ 0) :
    1/100 ≤ round2 x := by
  unfold round2 at h ⊢
  have h0 : 0 ≤ round (100 * x) := by
    rw [round_eq]
    exact Int.floor_nonneg.2 (by linarith)
  have h1 : round (100 * x) ≠ 0 := by
    intro hz; rw [hz] at h; simp at h
  have h2 : 1 ≤ round (100 * x) := by omega
  have hc : (1 : ℚ) ≤ ((round (100 * x) : ℤ) : ℚ) := by exact_mod_cast h2
  linarith

lemma round2_le_centi {x : ℚ} (hx : 0 ≤ x) (h : x < 3/200) : round2 x ≤ 1/100 := by
  unfold round2
  have h1 : round (100 * x) ≤ 1 := by
    rw [round_eq]
    have : ⌊100 * x + 1/2⌋ < 2 := Int.floor_lt.2 (by push_cast; linarith)
    omega
  have hc : ((round (100 * x) : ℤ) : ℚ) ≤ (1 : ℚ) := by exact_mod_cast h1
  linarith

lemma lt_of_round2_eq_zero {x : ℚ} (h : round2 x = 0) : x < 1/200 := by
  unfold round2 at h
  have hr : round (100 * x) = 0 := by
    rcases div_eq_zero_iff.1 h with h' | h'
    · exact_mod_cast h'
    · norm_num at h'
  have hm := round_eq_zero_iff.1 hr
  rw [Set.mem_Ico] at hm
  linarith [hm.2]

lemma round2_thirty : round2 30 = 30 :=
  round2_eq_self 3000 (by norm_num)

lemma round2_fifty : round2 50 = 50 :=
  round2_eq_self 5000 (by norm_num)

lemma round2_ninetyfive : round2 95 = 95 :=
  round2_eq_self 9500 (by norm_num)

/-! ### Helper lemmas: lists -/

lemma foldl_min_le (t : List ℚ) (h : ℚ) : ∀ x ∈ h :: t, t.foldl min h ≤ x := by
  induction t generalizing h with
  | nil =>
      intro x hx
      simp only [List.mem_singleton] at hx
      simp [hx]
  | cons b t ih =>
      intro x hx
      simp only [List.foldl_cons]
      rcases List.mem_cons.1 hx with rfl | hx'
      · exact le_trans (ih (min x b) (min x b) (List.mem_cons_self _ _)) (min_le_left _ _)
      rcases List.mem_cons.1 hx' with rfl | hx''
      · exact le_trans (ih (min h x) (min h x) (List.mem_cons_self _ _)) (min_le_right _ _)
      · exact ih (min h b) x (List.mem_cons_of_mem _ hx'')

lemma le_foldl_max (t : List ℚ) (h : ℚ) : ∀ x ∈ h :: t, x ≤ t.foldl max h := by
  induction t generalizing h with
  | nil =>
      intro x hx
      simp only [List.mem_singleton] at hx
      simp [hx]
  | cons b t ih =>
      intro x hx
      simp only [List.foldl_cons]
      rcases List.mem_cons.1 hx with rfl | hx'
      · exact le_trans (le_max_left _ _) (ih (max x b) (max x b) (List.mem_cons_self _ _))
      rcases List.mem_cons.1 hx' with rfl | hx''
      · exact le_trans (le_max_right _ _) (ih (max h x) (max h x) (List.mem_cons_self _ _))
      · exact ih (max h b) x (List.mem_cons_of_mem _ hx'')

lemma jsMinQ_le_of_mem {l : List ℚ} {x : ℚ} (hx : x ∈ l) : jsMinQ l ≤ x := by
  match l, hx with
  | h :: t, hx => exact foldl_min_le t h x hx

lemma le_jsMaxQ_of_mem {l : List ℚ} {x : ℚ} (hx : x ∈ l) : x ≤ jsMaxQ l := by
  match l, hx with
  | h :: t, hx => exact le_foldl_max t h x hx

lemma getLastD_mem : ∀ (l : List ℚ), l ≠ [] → l.getLastD 0 ∈ l := by
  intro l hl
  match l with
  | a :: t =>
      have : (a :: t).getLastD 0 = t.getLastD a := by
        cases t <;> simp [List.getLastD]
      rw [this]
      exact List.getLastD_mem_cons t a

lemma getLastD_drop {l : List ℚ} {k : ℕ} (h : k < l.length) :
    (l.drop k).getLastD 0 = l.getLastD 0 := by
  have hne : l.drop k ≠ [] := by
    intro hnil
    rw [List.drop_eq_nil_iff] at hnil
    omega
  conv_rhs => rw [← List.take_append_drop k l]
  rw [List.getLastD_eq_getLast?, List.getLastD_eq_getLast?, List.getLast?_append]
  cases hd : (l.drop k).getLast? with
  | none =>
      rw [List.getLast?_eq_none_iff] at hd
      exact absurd hd hne
  | some x => simp [Option.or]

lemma getLastD_mem_sliceLast {l : List ℚ} (hl : l ≠ []) {n : ℕ} (hn : 0 < n) :
    l.getLastD 0 ∈ sliceLast l n := by
  unfold sliceLast
  have hlen : 0 < l.length := List.length_pos.2 hl
  have hk : l.length - n < l.length := by omega
  rw [← getLastD_drop hk]
  apply getLastD_mem
  intro hnil
  rw [List.drop_eq_nil_iff] at hnil
  omega

lemma getLastD_pos {l : List ℚ} (hl : l ≠ []) (hpos : ∀ p ∈ l, 0 < p) :
    0 < l.getLastD 0 :=
  hpos _ (getLastD_mem l hl)

/-! ### Helper lemmas: concrete inputs -/

lemma risingPrices_length (n : ℕ) : (risingPrices n).length = n := by
  rw [risingPrices, List.length_map, List.length_range]

lemma risingPrices_pos {n : ℕ} : ∀ p ∈ risingPrices n, 0 < p := by
  intro p hp
  rw [risingPrices, List.mem_map] at hp
  obtain ⟨i, _, rfl⟩ := hp
  have hi : (0:ℚ) ≤ (i : ℚ) := Nat.cast_nonneg i
  linarith

lemma risingPrices_ne_nil {n : ℕ} (hn : 0 < n) : risingPrices n ≠ [] := by
  intro h
  have hl := risingPrices_length n
  rw [h] at hl
  simp at hl
  omega

lemma risingPrices_chain_lt (n : ℕ) : List.Chain' (· < ·) (risingPrices n) := by
  rw [risingPrices]
  apply List.chain'_map_of_chain' (fun (i : ℕ) => (i : ℚ) + 1)
  · intro a b hab
    have hc : (a : ℚ) < (b : ℚ) := by exact_mod_cast hab
    linarith
  · cases n with
    | zero => exact List.chain'_nil
    | succ m =>
        exact (List.chain'_range_succ (· < ·) m).2 (fun i _ => Nat.lt_succ_self i)

lemma foldl_min_replicate (k : ℕ) (c : ℚ) : (List.replicate k c).foldl min c = c := by
  induction k with
  | zero => rfl
  | succ k ih =>
      rw [List.replicate_succ, List.foldl_cons, min_self]
      exact ih

lemma jsMinQ_replicate_concat (k : ℕ) (c d : ℚ) :
    jsMinQ (List.replicate (k + 1) c ++ [d]) = min c d := by
  rw [List.replicate_succ, List.cons_append]
  show (List.replicate k c ++ [d]).foldl min c = min c d
  rw [List.foldl_append, foldl_min_replicate]
  rfl

lemma spikePrices_length : spikePrices.length = 200 := by
  rw [spikePrices, List.length_append, List.length_replicate, List.length_singleton]

lemma spikePrices_ne_nil : spikePrices ≠ [] := by
  apply List.ne_nil_of_length_pos
  rw [spikePrices_length]
  norm_num

lemma spikePrices_pos : ∀ p ∈ spikePrices, 0 < p := by
  intro p hp
  rw [spikePrices, List.mem_append, List.mem_replicate, List.mem_singleton] at hp
  rcases hp with ⟨_, rfl⟩ | rfl <;> norm_num

lemma spikePrices_last : spikePrices.getLastD 0 = 200 := List.getLastD_concat _ _ _

lemma spikePrices_slice20 : sliceLast spikePrices 20 = List.replicate 19 100 ++ [200] := by
  unfold sliceLast
  rw [spikePrices_length]
  show (List.replicate 199 (100:ℚ) ++ [200]).drop 180 = _
  rw [List.drop_append_of_le_length (by rw [List.length_replicate]; norm_num),
    List.drop_replicate]

lemma tinyPrices_ne_nil : tinyPrices ≠ [] := by
  rw [tinyPrices]
  exact List.cons_ne_nil _ _

lemma tinyPrices_pos : ∀ p ∈ tinyPrices, 0 < p := by
  intro p hp
  rw [tinyPrices, List.mem_cons, List.mem_singleton] at hp
  rcases hp with rfl | rfl <;> norm_num

lemma tinyPrices_last : tinyPrices.getLastD 0 = 1/10 := rfl

lemma analyzeTrendStrength_tmHalf (prices volumes : List ℚ) :
    analyzeTrendStrength tmHalf prices volumes = some (1/2) := rfl

/-! ### Helper lemmas: the SMA fill value and the market phase -/

lemma calculateSMA_getD_zero {prices : List ℚ} {period : ℕ}
    (hne : prices ≠ []) (hp : 2 ≤ period) :
    (calculateSMA prices period).getD 0 0 = 0 := by
  unfold calculateSMA
  rw [if_neg (by simpa using hne)]
  match prices, hne with
  | p :: rest, _ =>
      simp only [List.length_cons]
      rw [List.range_succ_eq_map]
      simp only [List.map_cons, List.getD_cons_zero]
      rw [if_pos (by omega)]

lemma marketSupport_pos {prices : List ℚ} (hne : prices ≠ [])
    (hpos : ∀ p ∈ prices, 0 < p) : 0 < marketSupport prices := by
  unfold marketSupport
  have hcp : 0 < prices.getLastD 0 := getLastD_pos hne hpos
  have : 0 < prices.getLastD 0 * (95/100) := by linarith
  exact lt_of_lt_of_le this (le_trans (le_max_right _ _) (le_max_right _ _))

lemma marketSupport_le_last {prices : List ℚ} (hne : prices ≠ [])
    (hpos : ∀ p ∈ prices, 0 < p) :
    marketSupport prices ≤ prices.getLastD 0 := by
  unfold marketSupport
  rw [calculateSMA_getD_zero hne (by norm_num), calculateSMA_getD_zero hne (by norm_num)]
  have hcp : 0 < prices.getLastD 0 := getLastD_pos hne hpos
  have hlow : jsMinQ (sliceLast prices 20) ≤ prices.getLastD 0 :=
    jsMinQ_le_of_mem (getLastD_mem_sliceLast hne (by norm_num))
  apply max_le hlow
  apply max_le
  · simp only [min_self]
    linarith
  · linarith

lemma marketResistance_eq {prices : List ℚ} (hne : prices ≠ [])
    (hpos : ∀ p ∈ prices, 0 < p) :
    marketResistance prices = marketSupport prices * (101/100) := by
  have m20 : (calculateSMA prices 20).getD 0 0 = 0 := calculateSMA_getD_zero hne (by norm_num)
  have m50 : (calculateSMA prices 50).getD 0 0 = 0 := calculateSMA_getD_zero hne (by norm_num)
  have hcp : 0 < prices.getLastD 0 := getLastD_pos hne hpos
  have hhigh : 0 < jsMaxQ (sliceLast prices 20) :=
    lt_of_lt_of_le hcp (le_jsMaxQ_of_mem (getLastD_mem_sliceLast hne (by norm_num)))
  have hs : 0 < marketSupport prices := marketSupport_pos hne hpos
  simp only [marketResistance, m20, m50]
  have h1 : min (max (0:ℚ) 0 * (1005/1000)) (prices.getLastD 0 * (105/100)) = 0 := by
    rw [max_self, zero_mul]
    exact min_eq_left (by linarith)
  rw [h1, min_eq_right (le_of_lt hhigh)]
  exact max_eq_right (by linarith)

lemma calculateMarketPhase_some {tm : TrendModel} {prices volumes : List ℚ}
    {crypto : String} {t : ℚ} (hml : analyzeTrendStrength tm prices volumes = some t)
    (hne : prices ≠ []) (hpos : ∀ p ∈ prices, 0 < p) :
    calculateMarketPhase tm prices volumes crypto =
      { phase := "sideways",
        strength := round2 |t|,
        confidence := round2 (calculateConfidence
          [|t| * 100, 60, 60,
           (prices.getLastD 0 - marketSupport prices) /
             (marketResistance prices - marketSupport prices) * 100]),
        keyLevels := marketKeyLevels prices } := by
  have hcp : 0 < prices.getLastD 0 := getLastD_pos hne hpos
  have m20 : (calculateSMA prices 20).getD 0 0 = 0 := calculateSMA_getD_zero hne (by norm_num)
  have m50 : (calculateSMA prices 50).getD 0 0 = 0 := calculateSMA_getD_zero hne (by norm_num)
  have m200 : (calculateSMA prices 200).getD 0 0 = 0 := calculateSMA_getD_zero hne (by norm_num)
  simp only [calculateMarketPhase, hml, m20, m50, m200]
  have c1 : ¬((0:ℚ) < prices.getLastD 0 ∧ (0:ℚ) < 0 ∧ (0:ℚ) < 0) :=
    fun h => lt_irrefl 0 h.2.1
  have c2 : ¬(¬(0:ℚ) < prices.getLastD 0 ∧ ¬(0:ℚ) < 0 ∧ ¬(0:ℚ) < 0) :=
    fun h => h.1 hcp
  have c3 : ¬((0:ℚ) < prices.getLastD 0 ∧ ¬(0:ℚ) < prices.getLastD 0) :=
    fun h => h.2 h.1
  have c4 : ¬(¬(0:ℚ) < prices.getLastD 0 ∧ (0:ℚ) < prices.getLastD 0) :=
    fun h => h.1 h.2
  rw [if_neg c1, if_neg c2, if_neg c3, if_neg c4, if_pos hcp]

lemma marketSupport_ge_95 (prices : List ℚ) :
    prices.getLastD 0 * (95/100) ≤ marketSupport prices := by
  simp only [marketSupport]
  exact le_trans (le_max_right _ _) (le_max_right _ _)

lemma marketKeyLevels_spec {prices : List ℚ} (hne : prices ≠ [])
    (hpos : ∀ p ∈ prices, 0 < p) :
    (marketKeyLevels prices).strongSupport ≤ (marketKeyLevels prices).support ∧
    (marketKeyLevels prices).support ≤ (marketKeyLevels prices).pivot ∧
    (marketKeyLevels prices).support ≤ (marketKeyLevels prices).resistance ∧
    (marketKeyLevels prices).resistance ≤ (marketKeyLevels prices).strongResistance := by
  have hR := marketResistance_eq hne hpos
  have hS : 0 < marketSupport prices := marketSupport_pos hne hpos
  have hcp : 0 < prices.getLastD 0 := getLastD_pos hne hpos
  have hScp : marketSupport prices ≤ prices.getLastD 0 := marketSupport_le_last hne hpos
  have h95 := marketSupport_ge_95 prices
  set S := marketSupport prices with hSdef
  set cp := prices.getLastD 0 with hcpdef
  have hss : round2 (S * (99/100)) ≤ round2 S := round2_mono (by linarith)
  have hsp : round2 S ≤ round2 cp := round2_mono hScp
  simp only [marketKeyLevels, hR, ← hcpdef]
  split_ifs with h1 h2 h2
  · -- resistance reset to 1.05·cp, strongResistance reset from it
    have hr0 : (0:ℚ) ≤ round2 (cp * (105/100)) := round2_nonneg (by linarith)
    refine ⟨hss, hsp, ?_, ?_⟩
    · exact round2_mono (by linarith)
    · calc round2 (cp * (105/100))
          = round2 (round2 (cp * (105/100))) := (round2_round2 _).symm
        _ ≤ round2 (round2 (cp * (105/100)) * (101/100)) := round2_mono (by linarith)
  · -- resistance reset, strongResistance kept
    have hRsmall : S * (101/100) < 1/200 := lt_of_round2_eq_zero h1
    have hcpS : cp ≤ S * (100/95) := by linarith
    have hcpsmall : cp * (105/100) < 3/200 := by nlinarith
    refine ⟨hss, hsp, ?_, ?_⟩
    · exact round2_mono (by linarith)
    · calc round2 (cp * (105/100)) ≤ 1/100 := round2_le_centi (by linarith) hcpsmall
        _ ≤ round2 (S * (101/100) * (101/100)) :=
          round2_ge_of_ne_zero (by nlinarith) h2
  · -- resistance kept, strongResistance reset
    have hr0 : (0:ℚ) ≤ round2 (S * (101/100)) := round2_nonneg (by linarith)
    refine ⟨hss, hsp, round2_mono (by linarith), ?_⟩
    calc round2 (S * (101/100))
        = round2 (round2 (S * (101/100))) := (round2_round2 _).symm
      _ ≤ round2 (round2 (S * (101/100)) * (101/100)) := round2_mono (by linarith)
  · -- both validations pass untouched
    exact ⟨hss, hsp, round2_mono (by linarith), round2_mono (by nlinarith)⟩

/-- C3: for every non-empty price series and every period ≥ 2, the first
entry of the array returned by `calculateSMA` is the pre-window fill value 0;
consequently the values `ma20`, `ma50`, `ma200` read by
`calculateMarketPhase` as `calculateSMA(prices, N)[0]` are all 0 for every
valid positive price series of length ≥ 2, and on its non-error path (a
successful trend-model call) `calculateMarketPhase` always returns the phase
"sideways". -/
theorem sma_first_zero_phase_sideways :
    (∀ (prices : List ℚ) (period : ℕ), prices ≠ [] → 2 ≤ period →
      (calculateSMA prices period).getD 0 0 = 0)
    ∧ (∀ prices : List ℚ, 2 ≤ prices.length → (∀ p ∈ prices, 0 < p) →
      (calculateSMA prices 20).getD 0 0 = 0 ∧ (calculateSMA prices 50).getD 0 0 = 0 ∧
        (calculateSMA prices 200).getD 0 0 = 0)
    ∧ (∀ (tm : TrendModel) (prices volumes : List ℚ) (crypto : String) (t : ℚ),
      2 ≤ prices.length → (∀ p ∈ prices, 0 < p) →
      analyzeTrendStrength tm prices volumes = some t →
      (calculateMarketPhase tm prices volumes crypto).phase = "sideways") := by
  refine ⟨fun prices period hne hp => calculateSMA_getD_zero hne hp, ?_, ?_⟩
  · intro prices hlen hpos
    have hne : prices ≠ [] := by
      intro h
      rw [h] at hlen
      simp at hlen
    exact ⟨calculateSMA_getD_zero hne (by norm_num), calculateSMA_getD_zero hne (by norm_num),
      calculateSMA_getD_zero hne (by norm_num)⟩
  · intro tm prices volumes crypto t hlen hpos hml
    have hne : prices ≠ [] := by
      intro h
      rw [h] at hlen
      simp at hlen
    rw [calculateMarketPhase_some hml hne hpos]

theorem sma_first_zero_phase_sideways_witness :
    (calculateSMA (risingPrices 2) 20).getD 0 0 = 0 ∧
    (calculateMarketPhase tmHalf (risingPrices 2) (flatVolumes 2) bitcoinId).phase =
      "sideways" :=
  ⟨sma_first_zero_phase_sideways.1 (risingPrices 2) 20 (risingPrices_ne_nil (by norm_num))
      (by norm_num),
   sma_first_zero_phase_sideways.2.2 tmHalf (risingPrices 2) (flatVolumes 2) bitcoinId
     (1/2) (by rw [risingPrices_length]) risingPrices_pos
     (analyzeTrendStrength_tmHalf _ _)⟩

lemma marketKeyLevels_eq_of_ne {prices : List ℚ}
    (h1 : round2 (marketResistance prices) ≠ 0)
    (h2 : round2 (marketResistance prices * (101/100)) ≠ 0) :
    marketKeyLevels prices =
      { strongSupport := round2 (marketSupport prices * (99/100)),
        support := round2 (marketSupport prices),
        pivot := round2 (prices.getLastD 0),
        resistance := round2 (marketResistance prices),
        strongResistance := round2 (marketResistance prices * (101/100)) } := by
  simp only [marketKeyLevels]
  rw [if_neg h1, if_neg h2]

lemma spike_support : marketSupport spikePrices = 190 := by
  have m20 : (calculateSMA spikePrices 20).getD 0 0 = 0 :=
    calculateSMA_getD_zero spikePrices_ne_nil (by norm_num)
  have m50 : (calculateSMA spikePrices 50).getD 0 0 = 0 :=
    calculateSMA_getD_zero spikePrices_ne_nil (by norm_num)
  simp only [marketSupport, m20, m50, spikePrices_last, spikePrices_slice20]
  rw [show List.replicate 19 (100:ℚ) = List.replicate (18 + 1) (100:ℚ) from rfl,
    jsMinQ_replicate_concat]
  norm_num [min_def, max_def]

lemma spike_resistance : marketResistance spikePrices = 190 * (101/100) := by
  rw [marketResistance_eq spikePrices_ne_nil spikePrices_pos, spike_support]

/-- C1 (counterexample): on the strictly rising valid series 1..200 the
returned key levels violate `pivot ≤ resistance`: the pivot is 200 while the
resistance collapses to `support * 1.01 = 191.9`, because the moving
averages read as `calculateSMA(...)[0]` are 0. -/
theorem keyLevels_pivot_gt_resistance :
    ¬((calculateMarketPhase tmHalf spikePrices (flatVolumes 200)
        bitcoinId).keyLevels.pivot ≤
      (calculateMarketPhase tmHalf spikePrices (flatVolumes 200)
        bitcoinId).keyLevels.resistance) := by
  rw [calculateMarketPhase_some (analyzeTrendStrength_tmHalf _ _) spikePrices_ne_nil
    spikePrices_pos]
  have h1 : round2 (marketResistance spikePrices) = 1919/10 := by
    rw [spike_resistance, show (190:ℚ) * (101/100) = 1919/10 by norm_num]
    exact round2_eq_self 19190 (by norm_num)
  have h2 : round2 (marketResistance spikePrices * (101/100)) ≠ 0 := by
    have hge : (1:ℚ) ≤ marketResistance spikePrices * (101/100) := by
      rw [spike_resistance]
      norm_num
    have h1r : round2 1 = 1 := round2_eq_self 100 (by norm_num)
    have := round2_mono hge
    rw [h1r] at this
    intro hzero
    rw [hzero] at this
    norm_num at this
  rw [marketKeyLevels_eq_of_ne (by rw [h1]; norm_num) h2]
  simp only [h1, spikePrices_last]
  rw [round2_eq_self 20000 (by norm_num)]
  norm_num

/-- C1 (amended): for every valid positive price series of length ≥ 200, on
the non-error path, the key levels satisfy
`strongSupport ≤ support ≤ pivot` and `support ≤ resistance ≤
strongResistance`; the originally claimed `pivot ≤ resistance` does not hold
(see the counterexample). -/
theorem keyLevels_partial_order {tm : TrendModel} {prices volumes : List ℚ}
    {crypto : String} {t : ℚ} (hml : analyzeTrendStrength tm prices volumes = some t)
    (hlen : 200 ≤ prices.length) (hpos : ∀ p ∈ prices, 0 < p) :
    (calculateMarketPhase tm prices volumes crypto).keyLevels.strongSupport ≤
      (calculateMarketPhase tm prices volumes crypto).keyLevels.support ∧
    (calculateMarketPhase tm prices volumes crypto).keyLevels.support ≤
      (calculateMarketPhase tm prices volumes crypto).keyLevels.pivot ∧
    (calculateMarketPhase tm prices volumes crypto).keyLevels.support ≤
      (calculateMarketPhase tm prices volumes crypto).keyLevels.resistance ∧
    (calculateMarketPhase tm prices volumes crypto).keyLevels.resistance ≤
      (calculateMarketPhase tm prices volumes crypto).keyLevels.strongResistance := by
  have hne : prices ≠ [] := by
    intro h
    rw [h] at hlen
    simp at hlen
  rw [calculateMarketPhase_some hml hne hpos]
  exact marketKeyLevels_spec hne hpos

theorem keyLevels_partial_order_witness :
    (calculateMarketPhase tmHalf (risingPrices 200) (flatVolumes 200)
        bitcoinId).keyLevels.strongSupport ≤
      (calculateMarketPhase tmHalf (risingPrices 200) (flatVolumes 200)
        bitcoinId).keyLevels.support :=
  (keyLevels_partial_order (analyzeTrendStrength_tmHalf _ _) (by rw [risingPrices_length])
    risingPrices_pos).1

/-- C7 (counterexample): on the valid positive series [0.10, 0.10] the
rounded resistance equals the rounded support (both 0.10), so the claimed
strict inequality fails after rounding to two decimals. -/
theorem resistance_round_eq_support :
    (calculateMarketPhase tmHalf tinyPrices [] tokenId).keyLevels.resistance =
      (calculateMarketPhase tmHalf tinyPrices [] tokenId).keyLevels.support := by
  rw [calculateMarketPhase_some (analyzeTrendStrength_tmHalf _ _) tinyPrices_ne_nil
    tinyPrices_pos]
  have hsup : marketSupport tinyPrices = 1/10 := by
    have m20 : (calculateSMA tinyPrices 20).getD 0 0 = 0 :=
      calculateSMA_getD_zero tinyPrices_ne_nil (by norm_num)
    have m50 : (calculateSMA tinyPrices 50).getD 0 0 = 0 :=
      calculateSMA_getD_zero tinyPrices_ne_nil (by norm_num)
    have hmin : jsMinQ (sliceLast tinyPrices 20) = 1/10 := by
      show jsMinQ tinyPrices = 1/10
      show [(1:ℚ)/10].foldl min (1/10) = 1/10
      rw [List.foldl_cons, min_self, List.foldl_nil]
    simp only [marketSupport, m20, m50, tinyPrices_last, hmin]
    norm_num [min_def, max_def]
  have hres : marketResistance tinyPrices = 101/1000 := by
    rw [marketResistance_eq tinyPrices_ne_nil tinyPrices_pos, hsup]
    norm_num
  have h1 : round2 (marketResistance tinyPrices) = 1/10 := by
    rw [hres]
    unfold round2
    norm_num [round_eq]
  have h2 : round2 (marketResistance tinyPrices * (101/100)) ≠ 0 := by
    have hge : (1:ℚ)/10 ≤ marketResistance tinyPrices * (101/100) := by
      rw [hres]
      norm_num
    have h1r : round2 (1/10) = 1/10 := round2_eq_self 10 (by norm_num)
    have := round2_mono hge
    rw [h1r] at this
    intro hzero
    rw [hzero] at this
    norm_num at this
  rw [marketKeyLevels_eq_of_ne (by rw [h1]; norm_num) h2]
  simp only [h1, hsup]
  exact (round2_eq_self 10 (by norm_num)).symm

/-- C7 (amended): for every valid positive price series, before rounding the
resistance is `support * 1.01`, strictly above the support; after rounding to
two decimals the returned resistance is ≥ the returned support (equality is
possible for sub-cent price levels). -/
theorem resistance_ge_support_amended {tm : TrendModel} {prices volumes : List ℚ}
    {crypto : String} {t : ℚ} (hml : analyzeTrendStrength tm prices volumes = some t)
    (hne : prices ≠ []) (hpos : ∀ p ∈ prices, 0 < p) :
    marketSupport prices < marketResistance prices ∧
    (calculateMarketPhase tm prices volumes crypto).keyLevels.support ≤
      (calculateMarketPhase tm prices volumes crypto).keyLevels.resistance := by
  have hS : 0 < marketSupport prices := marketSupport_pos hne hpos
  constructor
  · rw [marketResistance_eq hne hpos]
    nlinarith
  · rw [calculateMarketPhase_some hml hne hpos]
    exact (marketKeyLevels_spec hne hpos).2.2.1

theorem resistance_ge_support_amended_witness :
    marketSupport tinyPrices < marketResistance tinyPrices ∧
    (calculateMarketPhase tmHalf tinyPrices [] tokenId).keyLevels.support ≤
      (calculateMarketPhase tmHalf tinyPrices [] tokenId).keyLevels.resistance :=
  resistance_ge_support_amended (analyzeTrendStrength_tmHalf _ _) tinyPrices_ne_nil
    tinyPrices_pos

/-! ### Helper lemmas: Wilder smoothing and the RSI family -/

lemma priceDiffs_cons (a b : ℚ) (t : List ℚ) :
    priceDiffs (a :: b :: t) = (b - a) :: priceDiffs (b :: t) := rfl

lemma priceDiffs_nonneg : ∀ {l : List ℚ}, List.Chain' (· ≤ ·) l →
    ∀ d ∈ priceDiffs l, 0 ≤ d
  | [], _, d, hd => by simp [priceDiffs] at hd
  | [_], _, d, hd => by simp [priceDiffs] at hd
  | a :: b :: t, h, d, hd => by
      rw [priceDiffs_cons, List.mem_cons] at hd
      obtain ⟨hab, h'⟩ := List.chain'_cons.1 h
      rcases hd with rfl | hd
      · linarith
      · exact priceDiffs_nonneg h' d hd

lemma priceDiffs_pos : ∀ {l : List ℚ}, List.Chain' (· < ·) l →
    ∀ d ∈ priceDiffs l, 0 < d
  | [], _, d, hd => by simp [priceDiffs] at hd
  | [_], _, d, hd => by simp [priceDiffs] at hd
  | a :: b :: t, h, d, hd => by
      rw [priceDiffs_cons, List.mem_cons] at hd
      obtain ⟨hab, h'⟩ := List.chain'_cons.1 h
      rcases hd with rfl | hd
      · linarith
      · exact priceDiffs_pos h' d hd

lemma priceDiffs_length (l : List ℚ) : (priceDiffs l).length = l.length - 1 := by
  rw [priceDiffs, List.length_zipWith, List.length_tail]
  omega

lemma wilderInit_loss_zero {prices : List ℚ} {period : ℕ}
    (h : ∀ d ∈ priceDiffs prices, 0 ≤ d) : (wilderInit prices period).2 = 0 := by
  unfold wilderInit
  simp only
  rw [List.sum_eq_zero, zero_div]
  intro x hx
  rw [List.mem_map] at hx
  obtain ⟨d, hd, rfl⟩ := hx
  have := h d (List.take_subset _ _ hd)
  rw [max_eq_left (by linarith)]

lemma wilderInit_gain_pos {prices : List ℚ} {period : ℕ} (hper : 1 ≤ period)
    (hlen : period + 1 ≤ prices.length)
    (h : ∀ d ∈ priceDiffs prices, 0 < d) : 0 < (wilderInit prices period).1 := by
  unfold wilderInit
  simp only
  apply div_pos
  · apply List.sum_pos
    · intro x hx
      rw [List.mem_map] at hx
      obtain ⟨d, hd, rfl⟩ := hx
      have := h d (List.take_subset _ _ hd)
      rw [max_eq_right (by linarith)]
      exact this
    · have hdl : (priceDiffs prices).length = prices.length - 1 := priceDiffs_length _
      intro hnil
      have := congrArg List.length hnil
      rw [List.length_map, List.length_take, hdl] at this
      simp at this
      omega
  · exact_mod_cast hper

lemma wilderStep_loss_zero {period : ℕ} {g d : ℚ} (hd : 0 ≤ d) :
    wilderStep period (g, 0) d =
      ((g * ((period:ℚ) - 1) + max 0 d) / (period : ℚ), 0) := by
  unfold wilderStep
  simp only
  rw [max_eq_left (by linarith : -d ≤ 0)]
  norm_num

lemma foldl_wilderStep_loss_zero {period : ℕ} :
    ∀ (ds : List ℚ) (g : ℚ), (∀ d ∈ ds, 0 ≤ d) →
      (ds.foldl (wilderStep period) (g, 0)).2 = 0 := by
  intro ds
  induction ds with
  | nil => intro g _; rfl
  | cons d ds ih =>
      intro g hds
      rw [List.foldl_cons, wilderStep_loss_zero (hds d (List.mem_cons_self _ _))]
      exact ih _ (fun x hx => hds x (List.mem_cons_of_mem _ hx))

lemma wilderAvg_loss_zero {prices : List ℚ} {period : ℕ}
    (h : List.Chain' (· ≤ ·) prices) : (wilderAvg prices period).2 = 0 := by
  unfold wilderAvg
  have hds := priceDiffs_nonneg h
  have hinit := @wilderInit_loss_zero prices period hds
  rcases hw : wilderInit prices period with ⟨g0, l0⟩
  rw [hw] at hinit
  simp only at hinit
  subst hinit
  exact foldl_wilderStep_loss_zero _ g0
    (fun d hd => hds d (List.drop_subset _ _ hd))

lemma calculateRSI_nondecreasing {prices : List ℚ} {period : ℕ}
    (hlen : period + 1 ≤ prices.length) (h : List.Chain' (· ≤ ·) prices) :
    calculateRSI prices period = 10000/101 := by
  unfold calculateRSI
  rw [if_neg (by omega)]
  have hl := @wilderAvg_loss_zero prices period h
  simp only [hl, if_pos]
  norm_num

lemma wilder_nonneg {period : ℕ} :
    ∀ (ds : List ℚ) (gl : ℚ × ℚ), 0 ≤ gl.1 → 0 ≤ gl.2 →
      0 ≤ (ds.foldl (wilderStep period) gl).1 ∧ 0 ≤ (ds.foldl (wilderStep period) gl).2 := by
  intro ds
  induction ds with
  | nil => exact fun gl h1 h2 => ⟨h1, h2⟩
  | cons d ds ih =>
      intro gl h1 h2
      rw [List.foldl_cons]
      rcases Nat.eq_zero_or_pos period with hz | hpos
      · subst hz
        apply ih
        · show 0 ≤ (gl.1 * ((0:ℕ) - 1 : ℚ) + max 0 d) / ((0:ℕ) : ℚ)
          norm_num
        · show 0 ≤ (gl.2 * ((0:ℕ) - 1 : ℚ) + max 0 (-d)) / ((0:ℕ) : ℚ)
          norm_num
      · have hp1 : (1:ℚ) ≤ (period : ℚ) := by exact_mod_cast hpos
        apply ih
        · apply div_nonneg _ (by linarith)
          have := le_max_left (0:ℚ) d
          nlinarith
        · apply div_nonneg _ (by linarith)
          have := le_max_left (0:ℚ) (-d)
          nlinarith

lemma wilderAvg_nonneg (prices : List ℚ) (period : ℕ) :
    0 ≤ (wilderAvg prices period).1 ∧ 0 ≤ (wilderAvg prices period).2 := by
  unfold wilderAvg
  apply wilder_nonneg
  · unfold wilderInit
    simp only
    apply div_nonneg _ (by positivity)
    apply List.sum_nonneg
    intro x hx
    rw [List.mem_map] at hx
    obtain ⟨d, _, rfl⟩ := hx
    exact le_max_left _ _
  · unfold wilderInit
    simp only
    apply div_nonneg _ (by positivity)
    apply List.sum_nonneg
    intro x hx
    rw [List.mem_map] at hx
    obtain ⟨d, _, rfl⟩ := hx
    exact le_max_left _ _

lemma calculateRSI_bounds (prices : List ℚ) (period : ℕ) :
    0 ≤ calculateRSI prices period ∧ calculateRSI prices period ≤ 100 := by
  unfold calculateRSI
  dsimp only
  split_ifs with hs hz
  · norm_num
  · norm_num
  · obtain ⟨hg, hl⟩ := wilderAvg_nonneg prices period
    have hlpos : 0 < (wilderAvg prices period).2 := lt_of_le_of_ne hl (Ne.symm hz)
    have hrs : 0 ≤ (wilderAvg prices period).1 / (wilderAvg prices period).2 :=
      div_nonneg hg (le_of_lt hlpos)
    constructor
    · have h2 : 100 / (1 + (wilderAvg prices period).1 / (wilderAvg prices period).2) ≤ 100 :=
        div_le_self (by norm_num) (by linarith)
      linarith
    · have h2 : 0 < 100 / (1 + (wilderAvg prices period).1 / (wilderAvg prices period).2) :=
        div_pos (by norm_num) (by linarith)
      linarith

/-- C5 (counterexample): on the valid 15-point constant series the
Wilder-smoothed average loss is exactly 0, yet `calculateRSI` returns
100 - 100/(1+100) = 10000/101, approximately 99.01, not exactly 100. -/
theorem rsi_zero_loss_not_100 :
    (wilderAvg (List.replicate 15 (5:ℚ)) 14).2 = 0 ∧
    calculateRSI (List.replicate 15 (5:ℚ)) 14 ≠ 100 := by
  have hchain : List.Chain' (· ≤ ·) (List.replicate 15 (5:ℚ)) :=
    List.chain'_replicate_of_rel _ le_rfl
  constructor
  · exact wilderAvg_loss_zero hchain
  · rw [calculateRSI_nondecreasing (by rw [List.length_replicate]) hchain]
    norm_num

/-- C5 (amended): `calculateRSI` returns exactly 50 when the series has
fewer than period+1 points; when the Wilder-smoothed average loss is exactly
0 (e.g. on any non-decreasing series of at least period+1 points) the code
maps RS to 100 and returns 100 - 100/101 = 10000/101, approximately 99.01 —
not 100 as claimed.  (The trailing `isNaN` guard to 50 cannot fire in exact
arithmetic.) -/
theorem rsi_defaults_amended :
    (∀ (prices : List ℚ) (period : ℕ), prices.length < period + 1 →
      calculateRSI prices period = 50)
    ∧ (∀ (prices : List ℚ) (period : ℕ), period + 1 ≤ prices.length →
      List.Chain' (· ≤ ·) prices → calculateRSI prices period = 10000/101) := by
  constructor
  · intro prices period h
    unfold calculateRSI
    rw [if_pos h]
  · intro prices period hlen hchain
    exact calculateRSI_nondecreasing hlen hchain

theorem rsi_defaults_amended_witness :
    calculateRSI [(5:ℚ)] 14 = 50 ∧
    calculateRSI (List.replicate 20 (7:ℚ)) 14 = 10000/101 :=
  ⟨rsi_defaults_amended.1 [(5:ℚ)] 14 (by rw [List.length_singleton]; norm_num),
   rsi_defaults_amended.2 (List.replicate 20 (7:ℚ)) 14
     (by rw [List.length_replicate]; norm_num)
     (List.chain'_replicate_of_rel _ le_rfl)⟩

/-! ### Helper lemmas: NaN propagation in StochRSI and ADX -/

lemma jdivQ_zero_zero : jdivQ 0 0 = JVal.nan := by
  simp [jdivQ, JVal.div]

lemma jdivQ_pos_zero {g : ℚ} (hg : 0 < g) : jdivQ g 0 = JVal.inf true := by
  simp [jdivQ, JVal.div, hg, hg.ne']

lemma rsiFromAverages_pos_zero {g : ℚ} (hg : 0 < g) :
    rsiFromAverages g 0 = JVal.num 100 := by
  unfold rsiFromAverages
  rw [jdivQ_pos_zero hg]
  simp [JVal.add, JVal.div, JVal.sub, JVal.neg]

lemma rsiArrayGo_all_100 {period : ℕ} (hper : 1 ≤ period) :
    ∀ (ds : List ℚ) (g : ℚ), 0 < g → (∀ d ∈ ds, 0 < d) →
      ∀ v ∈ rsiArrayGo period (g, 0) ds, v = JVal.num 100 := by
  intro ds
  induction ds with
  | nil =>
      intro g _ _ v hv
      simp [rsiArrayGo] at hv
  | cons d ds ih =>
      intro g hg hds v hv
      have hd : 0 < d := hds d (List.mem_cons_self _ _)
      have hp1 : (1:ℚ) ≤ (period : ℚ) := by exact_mod_cast hper
      rw [show rsiArrayGo period (g, 0) (d :: ds) =
          (rsiFromAverages (wilderStep period (g, 0) d).1 (wilderStep period (g, 0) d).2 ::
            rsiArrayGo period (wilderStep period (g, 0) d) ds) from rfl] at hv
      rw [wilderStep_loss_zero (le_of_lt hd)] at hv
      have hg' : 0 < (g * ((period:ℚ) - 1) + max 0 d) / (period : ℚ) := by
        apply div_pos _ (by linarith)
        have hmax : max 0 d = d := max_eq_right (le_of_lt hd)
        nlinarith
      simp only [List.mem_cons] at hv
      rcases hv with rfl | hv
      · exact rsiFromAverages_pos_zero hg'
      · exact ih _ hg' (fun x hx => hds x (List.mem_cons_of_mem _ hx)) v hv

lemma rsiArrayGo_ne_nil {period : ℕ} (gl : ℚ × ℚ) (d : ℚ) (ds : List ℚ) :
    rsiArrayGo period gl (d :: ds) ≠ [] := by
  show (rsiFromAverages (wilderStep period gl d).1 (wilderStep period gl d).2 ::
    rsiArrayGo period (wilderStep period gl d) ds) ≠ []
  exact List.cons_ne_nil _ _

lemma getLastD_mem' {α : Type} : ∀ (l : List α) (d : α), l ≠ [] → l.getLastD d ∈ l := by
  intro l d hl
  match l with
  | a :: t =>
      have h : (a :: t).getLastD d = t.getLastD a := by
        cases t <;> simp [List.getLastD]
      rw [h]
      exact List.getLastD_mem_cons t a

lemma foldl_min2_const {c : ℚ} :
    ∀ (l : List JVal), (∀ v ∈ l, v = JVal.num c) →
      l.foldl JVal.min2 (JVal.num c) = JVal.num c := by
  intro l
  induction l with
  | nil => intro _; rfl
  | cons v t ih =>
      intro h
      rw [List.foldl_cons, h v (List.mem_cons_self _ _)]
      have hs : JVal.min2 (JVal.num c) (JVal.num c) = JVal.num c := by
        simp [JVal.min2]
      rw [hs]
      exact ih (fun x hx => h x (List.mem_cons_of_mem _ hx))

lemma foldl_max2_const {c : ℚ} :
    ∀ (l : List JVal), (∀ v ∈ l, v = JVal.num c) →
      l.foldl JVal.max2 (JVal.num c) = JVal.num c := by
  intro l
  induction l with
  | nil => intro _; rfl
  | cons v t ih =>
      intro h
      rw [List.foldl_cons, h v (List.mem_cons_self _ _)]
      have hs : JVal.max2 (JVal.num c) (JVal.num c) = JVal.num c := by
        simp [JVal.max2]
      rw [hs]
      exact ih (fun x hx => h x (List.mem_cons_of_mem _ hx))

lemma jsMinJ_const {c : ℚ} {l : List JVal} (hne : l ≠ [])
    (h : ∀ v ∈ l, v = JVal.num c) : jsMinJ l = JVal.num c := by
  match l, hne with
  | v :: t, _ =>
      unfold jsMinJ
      rw [List.foldl_cons, h v (List.mem_cons_self _ _)]
      have hstep : JVal.min2 (JVal.inf true) (JVal.num c) = JVal.num c := by
        simp [JVal.min2]
      rw [hstep]
      exact foldl_min2_const t (fun x hx => h x (List.mem_cons_of_mem _ hx))

lemma jsMaxJ_const {c : ℚ} {l : List JVal} (hne : l ≠ [])
    (h : ∀ v ∈ l, v = JVal.num c) : jsMaxJ l = JVal.num c := by
  match l, hne with
  | v :: t, _ =>
      unfold jsMaxJ
      rw [List.foldl_cons, h v (List.mem_cons_self _ _)]
      have hstep : JVal.max2 (JVal.inf false) (JVal.num c) = JVal.num c := by
        simp [JVal.max2]
      rw [hstep]
      exact foldl_max2_const t (fun x hx => h x (List.mem_cons_of_mem _ hx))

lemma calculateStochRSI_nan_of_strict {prices : List ℚ}
    (hchain : List.Chain' (· < ·) prices) (hlen : 16 ≤ prices.length) :
    calculateStochRSI prices 14 = JVal.nan := by
  have hds := priceDiffs_pos hchain
  have hdl : (priceDiffs prices).length = prices.length - 1 := priceDiffs_length _
  have hg0 : 0 < (wilderInit prices 14).1 :=
    wilderInit_gain_pos (by norm_num) (by omega) hds
  have hl0 : (wilderInit prices 14).2 = 0 :=
    wilderInit_loss_zero (fun d hd => le_of_lt (hds d hd))
  have hdrop : ∀ d ∈ (priceDiffs prices).drop 14, 0 < d :=
    fun d hd => hds d (List.drop_subset _ _ hd)
  have hdropne : (priceDiffs prices).drop 14 ≠ [] := by
    intro hnil
    rw [List.drop_eq_nil_iff] at hnil
    omega
  have hinit : wilderInit prices 14 = ((wilderInit prices 14).1, (0:ℚ)) := by
    rw [← hl0]
  have hall : ∀ v ∈ calculateRSIArray prices 14, v = JVal.num 100 := by
    unfold calculateRSIArray
    rw [hinit]
    exact rsiArrayGo_all_100 (by norm_num) _ _ hg0 hdrop
  have hne : calculateRSIArray prices 14 ≠ [] := by
    unfold calculateRSIArray
    match hd : (priceDiffs prices).drop 14, hdropne with
    | d :: ds, _ => exact rsiArrayGo_ne_nil _ d ds
  have hcur : (calculateRSIArray prices 14).getLastD JVal.nan = JVal.num 100 :=
    hall _ (getLastD_mem' _ _ hne)
  unfold calculateStochRSI
  dsimp only
  rw [jsMinJ_const hne hall, jsMaxJ_const hne hall, hcur]
  simp [JVal.sub, JVal.neg, JVal.add, JVal.div, JVal.mul]

lemma calculateTrueRange_cons (a b : ℚ) (t : List ℚ) :
    calculateTrueRange (a :: b :: t) =
      (max (b - a) (max |b - a| |a - a|)) :: calculateTrueRange (b :: t) := rfl

lemma calculateTrueRange_zero : ∀ {l : List ℚ} {c : ℚ}, (∀ p ∈ l, p = c) →
    ∀ x ∈ calculateTrueRange l, x = 0
  | [], _, _, x, hx => by simp [calculateTrueRange] at hx
  | [_], _, _, x, hx => by simp [calculateTrueRange] at hx
  | a :: b :: t, c, h, x, hx => by
      rw [calculateTrueRange_cons, List.mem_cons] at hx
      have ha : a = c := h a (List.mem_cons_self _ _)
      have hb : b = c := h b (List.mem_cons_of_mem _ (List.mem_cons_self _ _))
      rcases hx with rfl | hx
      · subst ha
        subst hb
        norm_num
      · exact calculateTrueRange_zero (fun p hp => h p (List.mem_cons_of_mem _ hp)) x hx

lemma priceDiffs_zero : ∀ {l : List ℚ} {c : ℚ}, (∀ p ∈ l, p = c) →
    ∀ d ∈ priceDiffs l, d = 0
  | [], _, _, d, hd => by simp [priceDiffs] at hd
  | [_], _, _, d, hd => by simp [priceDiffs] at hd
  | a :: b :: t, c, h, d, hd => by
      rw [priceDiffs_cons, List.mem_cons] at hd
      have ha : a = c := h a (List.mem_cons_self _ _)
      have hb : b = c := h b (List.mem_cons_of_mem _ (List.mem_cons_self _ _))
      rcases hd with rfl | hd
      · rw [ha, hb]
        ring
      · exact priceDiffs_zero (fun p hp => h p (List.mem_cons_of_mem _ hp)) d hd

lemma calculateADX_const {prices : List ℚ} {c : ℚ} (h : ∀ p ∈ prices, p = c) :
    calculateADX prices 14 = JVal.nan := by
  have htr : (sliceLast (calculateTrueRange prices) 14).sum = 0 := by
    apply List.sum_eq_zero
    intro x hx
    exact calculateTrueRange_zero h x (List.drop_subset _ _ hx)
  have hdm : ((priceDiffs prices).map (fun d => max 0 d)).sum = 0 := by
    apply List.sum_eq_zero
    intro x hx
    rw [List.mem_map] at hx
    obtain ⟨d, hd, rfl⟩ := hx
    rw [priceDiffs_zero h d hd]
    norm_num
  have hdmm : (List.zipWith (fun _high low => max 0 (low - low)) prices.tail prices).sum
      = 0 := by
    apply List.sum_eq_zero
    intro x hx
    rcases List.mem_iff_get.1 hx with ⟨n, rfl⟩
    rw [List.get_zipWith]
    norm_num
  unfold calculateADX
  dsimp only
  rw [htr, hdm, hdmm]
  norm_num
  rw [jdivQ_zero_zero]
  simp [JVal.mul, JVal.sub, JVal.neg, JVal.add, JVal.div, JVal.jabs]

/-- C4 (counterexample): Stochastic RSI is not NaN-safe: on the valid
strictly-rising 16-point series 1..16 every entry of the rolling RSI array
equals 100, so `(currentRSI - minRSI) / (maxRSI - minRSI)` is 0/0 and
`calculateStochRSI` returns NaN. -/
theorem stochRSI_nan_on_rising16 :
    calculateStochRSI (risingPrices 16) 14 = JVal.nan :=
  calculateStochRSI_nan_of_strict (risingPrices_chain_lt 16)
    (by rw [risingPrices_length])

/-- C4 (amended): not every indicator is NaN-safe.  `calculateRSI` is: it
always returns a real number in [0,100] (a zero average loss resolves to the
rs := 100 fallback).  But `calculateStochRSI` returns NaN on every strictly
rising valid series of at least 16 points, and `calculateADX` returns NaN on
every constant series — in both cases the degenerate division produces NaN,
which propagates into the returned value. -/
theorem nan_safety_amended :
    (∀ prices : List ℚ, List.Chain' (· < ·) prices → 16 ≤ prices.length →
      calculateStochRSI prices 14 = JVal.nan)
    ∧ (∀ (prices : List ℚ) (c : ℚ), (∀ p ∈ prices, p = c) →
      calculateADX prices 14 = JVal.nan)
    ∧ (∀ (prices : List ℚ) (period : ℕ),
      0 ≤ calculateRSI prices period ∧ calculateRSI prices period ≤ 100) :=
  ⟨fun _ hchain hlen => calculateStochRSI_nan_of_strict hchain hlen,
   fun _ c h => calculateADX_const h,
   fun prices period => calculateRSI_bounds prices period⟩

theorem nan_safety_amended_witness :
    calculateStochRSI (risingPrices 17) 14 = JVal.nan ∧
    calculateADX (List.replicate 15 (5:ℚ)) 14 = JVal.nan :=
  ⟨nan_safety_amended.1 (risingPrices 17) (risingPrices_chain_lt 17)
      (by rw [risingPrices_length]; norm_num),
   nan_safety_amended.2.1 (List.replicate 15 (5:ℚ)) 5
      (fun p hp => List.eq_of_mem_replicate hp)⟩

/-! ### C8: risk warnings -/

/-- C8 (counterexample): the weak-trend warning is controlled by the signed
comparison `trendStrength < 0.3`, not by `|trendStrength| < 0.3`: at
trend strength -0.5 (with calm volatility 30 and volume ratio 1) the warning
is emitted although |-0.5| ≥ 0.3. -/
theorem riskWarnings_signed_trend_cex :
    "Weak market trend" ∈ generateRiskWarnings 30 (-(1/2)) (JVal.num 1) ∧
    ¬(|(-(1/2) : ℚ)| < 3/10) := by
  constructor
  · unfold generateRiskWarnings
    rw [if_neg (by norm_num : ¬(50:ℚ) < 30), if_pos (by norm_num : (-(1/2):ℚ) < 3/10),
      if_neg (by simp [JVal.gtq] : ¬(JVal.num 1).gtq 2 = true)]
    simp
  · rw [abs_neg, abs_of_pos (by norm_num : (0:ℚ) < 1/2)]
    norm_num

/-- C8 (amended): `generateRiskWarnings` emits the high-volatility warning
exactly when volatility > 50, the weak-trend warning exactly when the
*signed* trend strength is < 0.3 (no absolute value is taken), and the
unusual-volume warning exactly when the volume ratio compares > 2 (false on
NaN); when none fires it returns the single no-significant-risk message, so
the list is never empty. -/
theorem riskWarnings_characterization (volatility trendStrength : ℚ)
    (volumeRatio : JVal) :
    ("High market volatility" ∈ generateRiskWarnings volatility trendStrength volumeRatio
      ↔ 50 < volatility)
    ∧ ("Weak market trend" ∈ generateRiskWarnings volatility trendStrength volumeRatio
      ↔ trendStrength < 3/10)
    ∧ ("Unusual trading volume" ∈ generateRiskWarnings volatility trendStrength volumeRatio
      ↔ volumeRatio.gtq 2 = true)
    ∧ generateRiskWarnings volatility trendStrength volumeRatio ≠ []
    ∧ (¬50 < volatility → ¬trendStrength < 3/10 → ¬volumeRatio.gtq 2 = true →
      generateRiskWarnings volatility trendStrength volumeRatio =
        ["No significant risks detected"]) := by
  unfold generateRiskWarnings
  split_ifs with h1 h2 h3 <;> simp_all

theorem riskWarnings_characterization_witness :
    generateRiskWarnings 30 (1/2) (JVal.num 1) = ["No significant risks detected"] :=
  (riskWarnings_characterization 30 (1/2) (JVal.num 1)).2.2.2.2
    (by norm_num) (by norm_num) (by simp [JVal.gtq])

/-! ### C9: confidence bounds -/

/-- C9: every confidence field produced for a MarketCondition or a
PredictionSet — on the normal path and on the default/fallback path — lies
in [30, 95]. -/
theorem confidence_bounds :
    (∀ indicators : List ℚ, indicators ≠ [] →
      30 ≤ calculateConfidence indicators ∧ calculateConfidence indicators ≤ 95)
    ∧ (∀ d : PredictInput,
      (30 ≤ (predictPriceTargets d).shortTerm.confidence ∧
        (predictPriceTargets d).shortTerm.confidence ≤ 95) ∧
      (30 ≤ (predictPriceTargets d).midTerm.confidence ∧
        (predictPriceTargets d).midTerm.confidence ≤ 95) ∧
      (30 ≤ (predictPriceTargets d).longTerm.confidence ∧
        (predictPriceTargets d).longTerm.confidence ≤ 95))
    ∧ (∀ currentPrice : ℚ,
      (30 ≤ (getDefaultPredictions currentPrice).shortTerm.confidence ∧
        (getDefaultPredictions currentPrice).shortTerm.confidence ≤ 95) ∧
      (30 ≤ (getDefaultPredictions currentPrice).midTerm.confidence ∧
        (getDefaultPredictions currentPrice).midTerm.confidence ≤ 95) ∧
      (30 ≤ (getDefaultPredictions currentPrice).longTerm.confidence ∧
        (getDefaultPredictions currentPrice).longTerm.confidence ≤ 95))
    ∧ (∀ (tm : TrendModel) (prices volumes : List ℚ) (crypto : String),
      prices ≠ [] → (∀ p ∈ prices, 0 < p) →
      30 ≤ (calculateMarketPhase tm prices volumes crypto).confidence ∧
        (calculateMarketPhase tm prices volumes crypto).confidence ≤ 95) := by
  have hcc : ∀ indicators : List ℚ,
      30 ≤ calculateConfidence indicators ∧ calculateConfidence indicators ≤ 95 := by
    intro indicators
    unfold calculateConfidence
    constructor
    · exact le_min (by norm_num) (le_max_left _ _)
    · exact min_le_left _ _
  refine ⟨fun ind _ => hcc ind, ?_, ?_, ?_⟩
  · intro d
    unfold predictPriceTargets
    dsimp only
    set X := (70 : ℚ) - min (5/100) (d.volatility / 1000) * 100 +
      |(d.sentiment - 50) / 100 * (2/100)| * 100 with hX
    have hb1 : (50:ℚ) ≤ min 90 (max 50 X) := le_min (by norm_num) (le_max_left _ _)
    have hb2 : min 90 (max 50 X) ≤ 90 := min_le_left _ _
    refine ⟨⟨by linarith, by linarith⟩, ⟨?_, ?_⟩, ⟨?_, ?_⟩⟩
    · calc (30:ℚ) ≤ 40 := by norm_num
        _ ≤ max 40 (min 90 (max 50 X) * (9/10)) := le_max_left _ _
    · apply max_le (by norm_num)
      nlinarith
    · exact le_max_left _ _
    · apply max_le (by norm_num)
      nlinarith
  · intro currentPrice
    unfold getDefaultPredictions
    norm_num
  · intro tm prices volumes crypto hne hpos
    cases hml : analyzeTrendStrength tm prices volumes with
    | none =>
        unfold calculateMarketPhase
        rw [hml]
        unfold getDefaultMarketPhase
        dsimp only
        norm_num
    | some t =>
        rw [calculateMarketPhase_some hml hne hpos]
        dsimp only
        have h := hcc [|t| * 100, 60, 60,
          (prices.getLastD 0 - marketSupport prices) /
            (marketResistance prices - marketSupport prices) * 100]
        constructor
        · have := round2_mono h.1
          rwa [round2_thirty] at this
        · have := round2_mono h.2
          rwa [round2_ninetyfive] at this

theorem confidence_bounds_witness :
    (30 ≤ calculateConfidence [(50:ℚ)] ∧ calculateConfidence [(50:ℚ)] ≤ 95) ∧
    (30 ≤ (calculateMarketPhase tmHalf tinyPrices [] tokenId).confidence ∧
      (calculateMarketPhase tmHalf tinyPrices [] tokenId).confidence ≤ 95) :=
  ⟨confidence_bounds.1 [(50:ℚ)] (List.cons_ne_nil _ _),
   confidence_bounds.2.2.2 tmHalf tinyPrices [] tokenId tinyPrices_ne_nil tinyPrices_pos⟩

/-! ### C10: widening prediction ranges -/

/-- C10: under the widening-range policy the three prediction horizons have
monotonically non-decreasing range widths, including after the
sentiment/trend midpoint adjustments and the ±15% clamp. -/
theorem prediction_widths_monotone (d : PredictInput)
    (hcp : 0 < d.currentPrice) (hvol : 0 ≤ d.volatility)
    (hlen : 20 ≤ d.prices.length) (hpos : ∀ p ∈ d.prices, 0 < p) :
    (predictPriceTargets d).shortTerm.price.high -
        (predictPriceTargets d).shortTerm.price.low ≤
      (predictPriceTargets d).midTerm.price.high -
        (predictPriceTargets d).midTerm.price.low ∧
    (predictPriceTargets d).midTerm.price.high -
        (predictPriceTargets d).midTerm.price.low ≤
      (predictPriceTargets d).longTerm.price.high -
        (predictPriceTargets d).longTerm.price.low := by
  unfold predictPriceTargets
  dsimp only
  set vf := min (5/100) (d.volatility / 1000) with hvf
  have hvf0 : 0 ≤ vf := le_min (by norm_num) (by positivity)
  set sA := d.currentPrice * ((d.sentiment - 50) / 100 * (2/100)) with hsA
  set tA := d.currentPrice * (min (3/100) (max (-(3/100))
    (((sliceLast d.prices 20).getLastD 0 - (sliceLast d.prices 20).headD 0) /
      (sliceLast d.prices 20).headD 0))) with htA
  have hsm : d.currentPrice * (1 + (vf + 1/100)) + sA + tA ≤
      d.currentPrice * (1 + (vf * 2 + 2/100)) + sA + tA := by nlinarith
  have hml : d.currentPrice * (1 + (vf * 2 + 2/100)) + sA + tA ≤
      d.currentPrice * (1 + (vf * 3 + 3/100)) + sA + tA := by nlinarith
  have lsm : d.currentPrice * (1 - (vf * 2 + 2/100)) + sA + tA ≤
      d.currentPrice * (1 - (vf + 1/100)) + sA + tA := by nlinarith
  have lml : d.currentPrice * (1 - (vf * 3 + 3/100)) + sA + tA ≤
      d.currentPrice * (1 - (vf * 2 + 2/100)) + sA + tA := by nlinarith
  constructor
  · exact sub_le_sub (min_le_min hsm (le_refl _)) (max_le_max lsm (le_refl _))
  · exact sub_le_sub (min_le_min hml (le_refl _)) (max_le_max lml (le_refl _))

theorem prediction_widths_monotone_witness :
    (predictPriceTargets
        { prices := List.replicate 20 1, volumes := [], currentPrice := 100,
          volatility := 0, sentiment := 50 }).shortTerm.price.high -
      (predictPriceTargets
        { prices := List.replicate 20 1, volumes := [], currentPrice := 100,
          volatility := 0, sentiment := 50 }).shortTerm.price.low ≤
    (predictPriceTargets
        { prices := List.replicate 20 1, volumes := [], currentPrice := 100,
          volatility := 0, sentiment := 50 }).midTerm.price.high -
      (predictPriceTargets
        { prices := List.replicate 20 1, volumes := [], currentPrice := 100,
          volatility := 0, sentiment := 50 }).midTerm.price.low :=
  (prediction_widths_monotone _ (by norm_num) (by norm_num)
    (by rw [List.length_replicate]) (fun p hp => by
      rw [List.eq_of_mem_replicate hp]; norm_num)).1

/-! ### C2: the rising-series scenario -/

lemma arrGt_of_lt_at : ∀ (l1 l2 : List ℚ) (k : ℕ),
    (∀ i, i < k → l1.getD i 0 = l2.getD i 0) →
    l2.getD k 0 < l1.getD k 0 → k < l1.length → k < l2.length →
    arrGt l1 l2 = true := by
  intro l1
  induction l1 with
  | nil =>
      intro l2 k _ _ hk1 _
      simp at hk1
  | cons a t1 ih =>
      intro l2 k hpre hlt hk1 hk2
      match l2, hk2 with
      | b :: t2, hk2 =>
        cases k with
        | zero =>
            rw [List.getD_cons_zero, List.getD_cons_zero] at hlt
            unfold arrGt
            rw [if_pos hlt]
        | succ k =>
            have hhead : a = b := by
              have h0 := hpre 0 (Nat.succ_pos k)
              rwa [List.getD_cons_zero, List.getD_cons_zero] at h0
            subst hhead
            unfold arrGt
            rw [if_neg (lt_irrefl a), if_neg (lt_irrefl a)]
            rw [List.getD_cons_succ, List.getD_cons_succ] at hlt
            apply ih t2 k
            · intro i hi
              have := hpre (i + 1) (by omega)
              rwa [List.getD_cons_succ, List.getD_cons_succ] at this
            · exact hlt
            · simpa using Nat.lt_of_succ_lt_succ hk1
            · simpa using Nat.lt_of_succ_lt_succ hk2

lemma calculateSMA_length {prices : List ℚ} (hne : prices ≠ []) (period : ℕ) :
    (calculateSMA prices period).length = prices.length := by
  unfold calculateSMA
  rw [if_neg (by simpa using hne), List.length_map, List.length_range]

lemma calculateSMA_getD {prices : List ℚ} {period i : ℕ} (hne : prices ≠ [])
    (hi : i < prices.length) :
    (calculateSMA prices period).getD i 0 =
      if i < period - 1 then 0
      else ((prices.drop (i + 1 - period)).take period).sum / (period : ℚ) := by
  unfold calculateSMA
  rw [if_neg (by simpa using hne)]
  rw [List.getD_eq_getElem _ _ (by rw [List.length_map, List.length_range]; exact hi)]
  rw [List.getElem_map, List.getElem_range]

lemma sma_window_sum_pos {prices : List ℚ} {s p : ℕ} (hp : 0 < p)
    (hs : s < prices.length) (hpos : ∀ q ∈ prices, 0 < q) :
    0 < ((prices.drop s).take p).sum := by
  apply List.sum_pos
  · intro x hx
    exact hpos x (List.drop_subset _ _ (List.take_subset _ _ hx))
  · intro hnil
    have := congrArg List.length hnil
    rw [List.length_take, List.length_drop] at this
    simp at this
    omega

lemma determineTrendDirection_bullish {prices : List ℚ}
    (hlen : 50 ≤ prices.length) (hpos : ∀ p ∈ prices, 0 < p) :
    determineTrendDirection prices = "bullish" := by
  have hne : prices ≠ [] := by
    intro h
    rw [h] at hlen
    simp at hlen
  have h19 : (19:ℕ) < prices.length := by omega
  have h49 : (49:ℕ) < prices.length := by omega
  have h1 : arrGt (calculateSMA prices 20) (calculateSMA prices 50) = true := by
    apply arrGt_of_lt_at _ _ 19
    · intro i hi
      rw [@calculateSMA_getD prices 20 i hne (by omega),
        @calculateSMA_getD prices 50 i hne (by omega)]
      rw [if_pos (by omega : i < 20 - 1), if_pos (by omega : i < 50 - 1)]
    · rw [@calculateSMA_getD prices 20 19 hne h19,
        @calculateSMA_getD prices 50 19 hne h19]
      rw [if_neg (by omega : ¬(19:ℕ) < 20 - 1), if_pos (by omega : (19:ℕ) < 50 - 1)]
      apply div_pos
      · exact sma_window_sum_pos (by norm_num) (by omega) hpos
      · norm_num
    · rw [calculateSMA_length hne]
      exact h19
    · rw [calculateSMA_length hne]
      exact h19
  have h2 : arrGt (calculateSMA prices 50) (calculateSMA prices 200) = true := by
    apply arrGt_of_lt_at _ _ 49
    · intro i hi
      rw [@calculateSMA_getD prices 50 i hne (by omega),
        @calculateSMA_getD prices 200 i hne (by omega)]
      rw [if_pos (by omega : i < 50 - 1), if_pos (by omega : i < 200 - 1)]
    · rw [@calculateSMA_getD prices 50 49 hne h49,
        @calculateSMA_getD prices 200 49 hne h49]
      rw [if_neg (by omega : ¬(49:ℕ) < 50 - 1), if_pos (by omega : (49:ℕ) < 200 - 1)]
      apply div_pos
      · exact sma_window_sum_pos (by norm_num) (by omega) hpos
      · norm_num
    · rw [calculateSMA_length hne]
      exact h49
    · rw [calculateSMA_length hne]
      exact h49
  unfold determineTrendDirection
  dsimp only
  rw [h1, h2]
  rfl

/-- C2 (code-bug evaluation): on the 200-point strictly rising series with
flat volumes, the code computes trend.primary = "bullish" and an RSI of
10000/101 > 50 as the scenario expects, but `calculateMarketPhase`
classifies the phase as "sideways", not a bullish-family label: its
ma20/ma50/ma200 are read as `calculateSMA(prices, N)[0]`, the pre-window
fill 0, so the MA-alignment tests can never fire. -/
theorem risingSeries_phase_bug :
    (calculateMarketPhase tmHalf (risingPrices 200) (flatVolumes 200)
        bitcoinId).phase = "sideways" ∧
    determineTrendDirection (risingPrices 200) = "bullish" ∧
    50 < calculateRSI (risingPrices 200) 14 := by
  refine ⟨?_, ?_, ?_⟩
  · rw [calculateMarketPhase_some (analyzeTrendStrength_tmHalf _ _)
      (risingPrices_ne_nil (by norm_num)) risingPrices_pos]
  · exact determineTrendDirection_bullish (by rw [risingPrices_length]; norm_num)
      risingPrices_pos
  · rw [calculateRSI_nondecreasing (by rw [risingPrices_length]; norm_num)
      ((risingPrices_chain_lt 200).imp (by intro a b hab; exact le_of_lt hab))]
    norm_num

/-! ### C6: the orchestrator default paths -/

lemma calculateTechnicalSignals_none_of_short {jlog jsqrt : ℚ → ℚ}
    {prices volumes : List ℚ} (h : prices.length < 200) :
    calculateTechnicalSignals jlog jsqrt prices volumes = none := by
  unfold calculateTechnicalSignals
  rw [if_pos h]

lemma getFullAnalysis_default_of_short {jlog jsqrt : ℚ → ℚ} {tm : TrendModel}
    {hist : HistoricalData} {sentimentOpt : Option (List SentimentRec)}
    {newsOpt : Option (List NewsItem)} {strategyOpt : Option TradingStrategy}
    {crypto : String} (h : hist.prices.length < 200) :
    getFullAnalysis jlog jsqrt tm (some hist) sentimentOpt newsOpt strategyOpt crypto =
      getDefaultAnalysis crypto := by
  unfold getFullAnalysis
  dsimp only
  split_ifs with h20 hcp
  · rfl
  · rfl
  · rw [calculateTechnicalSignals_none_of_short h]

lemma calculateTechnicalSignals_isSome {jlog jsqrt : ℚ → ℚ}
    {prices volumes : List ℚ} (hlen : 200 ≤ prices.length)
    (hpos : ∀ p ∈ prices, 0 < p) :
    ∃ ts, calculateTechnicalSignals jlog jsqrt prices volumes = some ts := by
  have hany : ¬(prices.any (fun p => decide (p ≤ 0)) = true) := by
    rw [List.any_eq_true]
    rintro ⟨x, hx, hle⟩
    have h1 := hpos x hx
    simp only [decide_eq_true_eq] at hle
    linarith
  unfold calculateTechnicalSignals
  rw [if_neg (not_lt.2 hlen), if_neg hany]
  exact ⟨_, rfl⟩

lemma getDefaultAnalysis_phase (crypto : String) :
    (getDefaultAnalysis crypto).marketCondition.phase = "Analyzing" := rfl

lemma getFullAnalysis_phase_sideways {jlog jsqrt : ℚ → ℚ} {tm : TrendModel}
    {hist : HistoricalData} {sent : List SentimentRec} {news : List NewsItem}
    {strat : TradingStrategy} {crypto : String} {t : ℚ}
    (hlen : 200 ≤ hist.prices.length) (hpos : ∀ p ∈ hist.prices, 0 < p)
    (hcp : resolvedCurrentPrice hist ≠ 0)
    (hml : analyzeTrendStrength tm hist.prices
      (hist.volumes.getD (List.replicate hist.prices.length 0)) = some t) :
    (getFullAnalysis jlog jsqrt tm (some hist) (some sent) (some news) (some strat)
      crypto).marketCondition.phase = "sideways" := by
  have hne : hist.prices ≠ [] := by
    intro h
    rw [h] at hlen
    simp at hlen
  unfold getFullAnalysis
  dsimp only
  rw [if_neg (by omega : ¬hist.prices.length < 20)]
  rw [if_neg (by
    rintro (h0 | h0)
    · exact hcp h0
    · omega)]
  obtain ⟨ts, hts⟩ := @calculateTechnicalSignals_isSome jlog jsqrt hist.prices
    (hist.volumes.getD (List.replicate hist.prices.length 0)) hlen hpos
  rw [hts]
  show (calculateMarketPhase tm hist.prices
    (hist.volumes.getD (List.replicate hist.prices.length 0)) crypto).phase = "sideways"
  rw [calculateMarketPhase_some hml hne hpos]

/-- C6 (counterexample): with a valid 200-point price series and all-zero
volumes, `getFullAnalysis` does NOT return the default report: the technical
validation only rejects series shorter than 200 points, so the pipeline runs
and produces a report whose market phase is "sideways", while the default
report's phase is "Analyzing". -/
theorem fullAnalysis_zero_volumes_not_default :
    getFullAnalysis zeroFn zeroFn tmHalf (some histZeroVol200) (some []) (some [])
      (some holdStrategy) bitcoinId ≠ getDefaultAnalysis bitcoinId := by
  intro h
  have hph := congrArg (fun r => r.marketCondition.phase) h
  dsimp only at hph
  have hlen : 200 ≤ histZeroVol200.prices.length := by
    rw [show histZeroVol200.prices = risingPrices 200 from rfl, risingPrices_length]
  have hpos : ∀ p ∈ histZeroVol200.prices, 0 < p := risingPrices_pos
  have hcp : resolvedCurrentPrice histZeroVol200 ≠ 0 := by
    show (risingPrices 200).getLastD 0 ≠ 0
    exact (getLastD_pos (risingPrices_ne_nil (by norm_num)) risingPrices_pos).ne'
  rw [getFullAnalysis_phase_sideways hlen hpos hcp (analyzeTrendStrength_tmHalf _ _),
    getDefaultAnalysis_phase] at hph
  exact absurd hph (by decide)

/-- C6 (amended): `getFullAnalysis` returns the fixed default report for
EVERY fetched series shorter than 200 points — in particular for a
single-point series, and for a valid zero-volume series of length in
[20, 200), because `calculateTechnicalSignals` throws on fewer than 200
points and the orchestrator catches it.  For valid series of length ≥ 200,
all-zero volumes do NOT short-circuit: the pipeline proceeds and the
resulting report carries phase "sideways", not the default "Analyzing". -/
theorem fullAnalysis_default_amended :
    (∀ (jlog jsqrt : ℚ → ℚ) (tm : TrendModel) (hist : HistoricalData)
      (sentimentOpt : Option (List SentimentRec)) (newsOpt : Option (List NewsItem))
      (strategyOpt : Option TradingStrategy) (crypto : String),
      hist.prices.length < 200 →
      getFullAnalysis jlog jsqrt tm (some hist) sentimentOpt newsOpt strategyOpt crypto =
        getDefaultAnalysis crypto)
    ∧ (∀ (jlog jsqrt : ℚ → ℚ) (tm : TrendModel) (hist : HistoricalData)
      (sent : List SentimentRec) (news : List NewsItem) (strat : TradingStrategy)
      (crypto : String) (t : ℚ),
      200 ≤ hist.prices.length → (∀ p ∈ hist.prices, 0 < p) →
      (∀ v ∈ hist.volumes.getD (List.replicate hist.prices.length 0), v = 0) →
      resolvedCurrentPrice hist ≠ 0 →
      analyzeTrendStrength tm hist.prices
        (hist.volumes.getD (List.replicate hist.prices.length 0)) = some t →
      (getFullAnalysis jlog jsqrt tm (some hist) (some sent) (some news) (some strat)
          crypto).marketCondition.phase = "sideways" ∧
        (getDefaultAnalysis crypto).marketCondition.phase = "Analyzing") :=
  ⟨fun _ _ _ _ _ _ _ _ h => getFullAnalysis_default_of_short h,
   fun _ _ _ _ _ _ _ _ _ hlen hpos _ hcp hml =>
     ⟨getFullAnalysis_phase_sideways hlen hpos hcp hml, rfl⟩⟩

theorem fullAnalysis_default_amended_witness :
    getFullAnalysis zeroFn zeroFn tmHalf
      (some { prices := risingPrices 1, volumes := none, current_price := none })
      (some []) (some []) (some holdStrategy) bitcoinId = getDefaultAnalysis bitcoinId ∧
    (getFullAnalysis zeroFn zeroFn tmHalf (some histZeroVol200) (some []) (some [])
      (some holdStrategy) tokenId).marketCondition.phase = "sideways" := by
  constructor
  · apply fullAnalysis_default_amended.1
    show (risingPrices 1).length < 200
    rw [risingPrices_length]
    norm_num
  · refine (fullAnalysis_default_amended.2 zeroFn zeroFn tmHalf histZeroVol200 [] []
      holdStrategy tokenId (1/2) ?_ risingPrices_pos ?_ ?_
      (analyzeTrendStrength_tmHalf _ _)).1
    · rw [show histZeroVol200.prices = risingPrices 200 from rfl, risingPrices_length]
    · intro v hv
      exact List.eq_of_mem_replicate hv
    · show (risingPrices 200).getLastD 0 ≠ 0
      exact (getLastD_pos (risingPrices_ne_nil (by norm_num)) risingPrices_pos).ne'
